import Mathlib

/-!
Shallow embedding of the Layta Figma plugin (src/code.ts) and verification of
the specification claims.  JavaScript numbers are modelled as `ℚ` (rationals);
where the code applies 32-bit bitwise operators, the ECMAScript ToInt32
conversion is modelled explicitly.  JavaScript truthiness and the
short-circuit `&&` / `||` chains of the source are modelled on a dedicated
value type.
-/

set_option maxHeartbeats 1000000
set_option maxRecDepth 100000

mutual
/-- The universe of JavaScript values that flow through the plugin's data
paths: `null`/`undefined` (collapsed, both serialize to `nil`), booleans,
numbers (modelled as `ℚ`), strings, arrays and plain objects
(insertion-ordered entry lists).  Arrays and objects carry dedicated
mutual list types so that all functions over `JsValue` are structurally
recursive and evaluate inside the kernel. -/
inductive JsValue where
  | null
  | bool (b : Bool)
  | num (q : ℚ)
  | str (s : String)
  | arr (items : JsArr)
  | obj (entries : JsFields)
/-- An ordered JavaScript array payload. -/
inductive JsArr where
  | nil
  | cons (v : JsValue) (tail : JsArr)
/-- The insertion-ordered entry list of a JavaScript object. -/
inductive JsFields where
  | nil
  | cons (k : String) (v : JsValue) (tail : JsFields)
end

/-- ECMAScript ToBoolean on the modelled values: `undefined`/`null` are falsy,
`false` is falsy, `0` is falsy, the empty string is falsy, everything else
(arrays and objects included) is truthy. -/
def truthy : JsValue → Bool
  | .null => false
  | .bool b => b
  | .num q => decide (q ≠ 0)
  | .str s => decide (s ≠ "")
  | .arr _ => true
  | .obj _ => true

/-- JavaScript `a && b`: returns `a` when `a` is falsy, otherwise `b`. -/
def jsAnd (a b : JsValue) : JsValue := if truthy a then b else a

/-- JavaScript `a || b`: returns `a` when `a` is truthy, otherwise `b`. -/
def jsOr (a b : JsValue) : JsValue := if truthy a then a else b

/-- src/code.ts line 170: the horizontal sizing chain
`layoutSizingHorizontal === "FIXED" && figmaNode.width ||
 layoutSizingHorizontal === "FILL" && (!parentIsMainAxisRow && parentStretchItems && "auto" || "100%") ||
 layoutSizingHorizontal === "HUG" && "fit-content"`. -/
def resolveWidth (mode : String) (w : ℚ) (parentIsMainAxisRow parentStretchItems : Bool) : JsValue :=
  jsOr
    (jsOr
      (jsAnd (.bool (mode = "FIXED")) (.num w))
      (jsAnd (.bool (mode = "FILL"))
        (jsOr
          (jsAnd (jsAnd (.bool (!parentIsMainAxisRow)) (.bool parentStretchItems)) (.str "auto"))
          (.str "100%"))))
    (jsAnd (.bool (mode = "HUG")) (.str "fit-content"))

/-- src/code.ts line 173: the vertical sizing chain, identical to the
horizontal one except the cross-axis test is `parentIsMainAxisRow` instead of
`!parentIsMainAxisRow`. -/
def resolveHeight (mode : String) (h : ℚ) (parentIsMainAxisRow parentStretchItems : Bool) : JsValue :=
  jsOr
    (jsOr
      (jsAnd (.bool (mode = "FIXED")) (.num h))
      (jsAnd (.bool (mode = "FILL"))
        (jsOr
          (jsAnd (jsAnd (.bool parentIsMainAxisRow) (.bool parentStretchItems)) (.str "auto"))
          (.str "100%"))))
    (jsAnd (.bool (mode = "HUG")) (.str "fit-content"))

/-- ECMAScript truncation toward zero of a number, the first step of
ToInt32. -/
def jsTrunc (q : ℚ) : Int :=
  if 0 ≤ q.num then (q.num.toNat / q.den : Nat) else -((q.num.natAbs / q.den : Nat) : Int)

/-- The unsigned 32-bit pattern of an integer. -/
def toUint32 (i : Int) : Nat := (Int.emod i 4294967296).toNat

/-- ECMAScript ToInt32 applied to an integer: wrap modulo 2^32 and
reinterpret as a signed 32-bit value. -/
def toInt32 (i : Int) : Int :=
  let u := toUint32 i
  if u < 2147483648 then (u : Int) else (u : Int) - 4294967296

/-- ECMAScript ToInt32 on a number: truncate toward zero, then wrap. -/
def jsToInt32 (q : ℚ) : Int := toInt32 (jsTrunc q)

/-- JavaScript `a & b` on 32-bit converted operands. -/
def jsBitAnd (a b : Int) : Int :=
  toInt32 (Int.ofNat (Nat.land (toUint32 (toInt32 a)) (toUint32 (toInt32 b))))

/-- JavaScript `a | b` on 32-bit converted operands. -/
def jsBitOr (a b : Int) : Int :=
  toInt32 (Int.ofNat (Nat.lor (toUint32 (toInt32 a)) (toUint32 (toInt32 b))))

/-- JavaScript `a << n` for a small constant shift. -/
def jsShl (a : Int) (n : Nat) : Int :=
  toInt32 (Int.ofNat (toUint32 (toInt32 a) * 2 ^ n))

/-- src/code.ts lines 1-10: `packColor` clamps each channel to [0,1], scales
by 255, masks with `& 0xFF` (which performs ToInt32 truncation), and packs
`(A << 24) | (R << 16) | (G << 8) | B`.  The `clamp` helper is
`Math.max(min, Math.min(max, val))`. -/
def packColor (r g b : ℚ) (a : ℚ := 1) : Int :=
  let clamp : ℚ → ℚ → ℚ → ℚ := fun v lo hi => max lo (min hi v)
  let R := jsBitAnd (jsToInt32 (clamp r 0 1 * 255)) 255
  let G := jsBitAnd (jsToInt32 (clamp g 0 1 * 255)) 255
  let B := jsBitAnd (jsToInt32 (clamp b 0 1 * 255)) 255
  let A := jsBitAnd (jsToInt32 (clamp a 0 1 * 255)) 255
  jsBitOr (jsBitOr (jsBitOr (jsShl A 24) (jsShl R 16)) (jsShl G 8)) B

/-- The ten decimal digit characters. -/
def digitChars : List Char := ['0', '1', '2', '3', '4', '5', '6', '7', '8', '9']

/-- The character for the decimal digit `d`. -/
def digitChar (d : Nat) : Char := digitChars.getD d '0'

/-- Big-endian decimal digits of `n`, computed with explicit fuel so the
definition is structurally recursive (`natChars` always supplies enough). -/
def natCharsAux : Nat → Nat → List Char
  | 0, _ => []
  | f + 1, n => if n < 10 then [digitChar n] else natCharsAux f (n / 10) ++ [digitChar (n % 10)]

/-- Big-endian decimal digits of a natural number. -/
def natChars (n : Nat) : List Char := natCharsAux (n + 1) n

/-- Decimal character form of an integer, with a leading minus sign when
negative (the JavaScript `Number.prototype.toString` form for integers). -/
def intChars (i : Int) : List Char :=
  if i < 0 then '-' :: natChars i.natAbs else natChars i.toNat

/-- Models `value.toString()` on a JavaScript number (src/code.ts line 104).
On the integral fragment — the only one the claims exercise — this is the
exact decimal form; a non-integral rational is rendered `num/den`, an
artifact of the `ℚ` embedding (JavaScript float formatting is out of
scope). -/
def jsNumToString (q : ℚ) : String :=
  if q.den = 1 then String.mk (intChars q.num)
  else String.mk (intChars q.num) ++ "/" ++ String.mk (natChars q.den)

/-- src/code.ts line 105: `value.replace(/"/g, '\\"')` — escape every double
quote with a backslash; no other character (in particular no backslash) is
escaped. -/
def escQuotes : List Char → List Char
  | [] => []
  | c :: cs => if c = '"' then '\\' :: '"' :: escQuotes cs else c :: escQuotes cs

/-- src/code.ts line 113: the key test `/^[aZAZ][aZAZ09]*$/.test(k)`, exactly
as written in the source.  The character class `[aZAZ]` denotes "one of the
characters a, Z, A" (the dashes of an intended `[a-zA-Z]` are absent), and
`[aZAZ09]` adds the characters 0 and 9. -/
def matchesKeyRegex (k : String) : Bool :=
  match k.data with
  | [] => false
  | c :: cs =>
    (c = 'a' || c = 'Z' || c = 'A') &&
      cs.all (fun d => d = 'a' || d = 'Z' || d = 'A' || d = '0' || d = '9')

/-- src/code.ts line 113: a key is emitted bare when it passes the regex
test, otherwise as a bracketed quoted key. -/
def keyStr (k : String) : String :=
  if matchesKeyRegex k then k else "[\"" ++ k ++ "\"]"

/-- src/code.ts line 98: `"  ".repeat(level)`. -/
def indentStr : Nat → String
  | 0 => ""
  | n + 1 => "  " ++ indentStr n

/-- JavaScript `Array.prototype.join(sep)`. -/
def joinSep (sep : String) : List String → String
  | [] => ""
  | [x] => x
  | x :: xs => x ++ sep ++ joinSep sep xs

mutual
/-- src/code.ts lines 101-120: the recursive `serialize` helper of
`transpile`.  `null`/`undefined` become `nil`; booleans and numbers print
their literal form; strings are double-quoted with quotes escaped; an empty
array or object is `{}`; non-empty arrays and objects are brace-wrapped,
newline-separated and indented, object keys passing through `keyStr`. -/
def serialize : JsValue → Nat → String
  | .null, _ => "nil"
  | .bool b, _ => if b then "true" else "false"
  | .num q, _ => jsNumToString q
  | .str s, _ => "\"" ++ String.mk (escQuotes s.data) ++ "\""
  | .arr .nil, _ => "\x7b\x7d"
  | .arr (.cons v vs), level =>
    "\x7b\n" ++ indentStr (level + 1) ++
      joinSep (",\n" ++ indentStr (level + 1)) (serializeArr (.cons v vs) (level + 1)) ++
      "\n" ++ indentStr level ++ "\x7d"
  | .obj .nil, _ => "\x7b\x7d"
  | .obj (.cons k v kvs), level =>
    "\x7b\n" ++ indentStr (level + 1) ++
      joinSep (",\n" ++ indentStr (level + 1)) (serializeFields (.cons k v kvs) level) ++
      "\n" ++ indentStr level ++ "\x7d"
/-- The array items, each serialized at the given (already incremented)
level, in order (src/code.ts line 108). -/
def serializeArr : JsArr → Nat → List String
  | .nil, _ => []
  | .cons v vs, level => serialize v level :: serializeArr vs level
/-- The object entries as `key = value` strings, values serialized one level
deeper (src/code.ts lines 112-115). -/
def serializeFields : JsFields → Nat → List String
  | .nil, _ => []
  | .cons k v kvs, level =>
    (keyStr k ++ " = " ++ serialize v (level + 1)) :: serializeFields kvs level
end

/-- src/code.ts lines 97-123: `transpile` is `serialize` started at the given
indent level (default 0). -/
def transpile (object : JsValue) (indentLevel : Nat := 0) : String :=
  serialize object indentLevel

/-- A paint entry as read by the plugin: a kind tag, a color and an optional
opacity (`fill.opacity ?? 1` treats a missing opacity as 1). -/
structure Paint where
  type : String
  r : ℚ
  g : ℚ
  b : ℚ
  opacity : Option ℚ := none

/-- `fills.find(fill => fill.type === "SOLID" && (fill.opacity ?? 1) > 0)` —
the first solid paint with positive (or unspecified) opacity. -/
def findSolid : List Paint → Option Paint
  | [] => none
  | p :: ps => if p.type == "SOLID" && decide (0 < p.opacity.getD 1) then some p else findSolid ps

/-- The source scene-node attributes read by the plugin.  An `Option` field
models the JavaScript `"key" in figmaNode` presence test (`none` = the
property is absent on this node kind); `hasChildrenProp` models
`"children" in figmaNode`; `svgExport` is the outcome of the host's
`exportAsync` rasterization service for this node; the font fields hold the
family/style/size that `getTextFont` resolves (for a mixed-font text the
host supplies the first styled segment's values through the same fields). -/
structure FigmaProps where
  type : String
  name : String := ""
  visible : Bool := true
  x : ℚ := 0
  y : ℚ := 0
  width : ℚ := 0
  height : ℚ := 0
  layoutPositioning : Option String := none
  layoutMode : Option String := none
  layoutWrap : Option String := none
  primaryAxisAlignItems : Option String := none
  counterAxisAlignItems : Option String := none
  itemSpacing : Option ℚ := none
  layoutSizingHorizontal : Option String := none
  layoutSizingVertical : Option String := none
  fills : Option (List Paint) := none
  strokes : Option (List Paint) := none
  strokeWeights : Option (ℚ × ℚ × ℚ × ℚ) := none
  cornerRadii : Option (ℚ × ℚ × ℚ × ℚ) := none
  paddings : Option (ℚ × ℚ × ℚ × ℚ) := none
  characters : String := ""
  fontFamily : String := ""
  fontStyle : String := ""
  fontSize : ℚ := 0
  textAutoResize : String := ""
  hasChildrenProp : Bool := false
  svgExport : Except String String := .error "no export"

mutual
/-- A source scene node: its attributes and its ordered children. -/
inductive FigmaNode where
  | mk (props : FigmaProps) (children : FigmaList)
/-- An ordered list of source scene nodes (a dedicated mutual type so that
the tree conversion is structurally recursive). -/
inductive FigmaList where
  | nil
  | cons (head : FigmaNode) (tail : FigmaList)
end

/-- The attribute record of a node. -/
def FigmaNode.props : FigmaNode → FigmaProps
  | .mk p _ => p

/-- `figmaNode.children.every(child => child.type === "VECTOR")`
(src/code.ts line 182). -/
def allVector : FigmaList → Bool
  | .nil => true
  | .cons (.mk p _) rest => p.type == "VECTOR" && allVector rest

/-- src/code.ts lines 12-20 (`getFillColor`): locate the first solid,
positive-opacity fill and pack its color; absent fills or no match give no
value. -/
def getFillColor (p : FigmaProps) : Option Int :=
  match p.fills with
  | none => none
  | some fills =>
    match findSolid fills with
    | none => none
    | some solid => some (packColor solid.r solid.g solid.b (solid.opacity.getD 1))

/-- src/code.ts lines 37-45 (`getStrokeColor`): the same first-solid search
over the stroke list. -/
def getStrokeColor (p : FigmaProps) : Option Int :=
  match p.strokes with
  | none => none
  | some strokes =>
    match findSolid strokes with
    | none => none
    | some solid => some (packColor solid.r solid.g solid.b (solid.opacity.getD 1))

/-- src/code.ts lines 77-85 (`getTextColor`): identical to `getFillColor`,
duplicated in the source for text nodes. -/
def getTextColor (p : FigmaProps) : Option Int :=
  match p.fills with
  | none => none
  | some fills =>
    match findSolid fills with
    | none => none
    | some solid => some (packColor solid.r solid.g solid.b (solid.opacity.getD 1))

/-- The shared shape of the three four-sided style extractors
(src/code.ts lines 22-35, 47-60, 62-75): if the four values are all equal
and the first is positive, emit the single shorthand key; otherwise emit
each strictly positive side under its own key, in source order. -/
def fourSided (a b c d : ℚ) (kAll k1 k2 k3 k4 : String) : List (String × ℚ) :=
  if a = b ∧ b = c ∧ c = d ∧ 0 < a then [(kAll, a)]
  else
    (if 0 < a then [(k1, a)] else []) ++ (if 0 < b then [(k2, b)] else []) ++
    (if 0 < c then [(k3, c)] else []) ++ (if 0 < d then [(k4, d)] else [])

/-- src/code.ts lines 22-35: border radii, order topLeft, topRight,
bottomLeft, bottomRight; absent radius properties give an empty record. -/
def getBorderRadiusProps (p : FigmaProps) : List (String × ℚ) :=
  match p.cornerRadii with
  | none => []
  | some (tl, tr, bl, br) =>
    fourSided tl tr bl br "borderRadius" "borderTopLeftRadius" "borderTopRightRadius"
      "borderBottomLeftRadius" "borderBottomRightRadius"

/-- src/code.ts lines 47-60: stroke weights, order left, top, right,
bottom. -/
def getStrokeWeightProps (p : FigmaProps) : List (String × ℚ) :=
  match p.strokeWeights with
  | none => []
  | some (l, t, r, b) =>
    fourSided l t r b "strokeWeight" "strokeLeftWeight" "strokeTopWeight" "strokeRightWeight"
      "strokeBottomWeight"

/-- src/code.ts lines 62-75: paddings, order left, top, right, bottom. -/
def getPaddingProps (p : FigmaProps) : List (String × ℚ) :=
  match p.paddings with
  | none => []
  | some (l, t, r, b) =>
    fourSided l t r b "padding" "paddingLeft" "paddingTop" "paddingRight" "paddingBottom"

/-- `s.replace(/\n/g, "")`. -/
def stripNewlines (s : String) : String := String.mk (s.data.filter (fun c => !(c = '\n')))

/-- `s.replace(/\s/g, "")` — drop every whitespace character. -/
def stripSpaces (s : String) : String := String.mk (s.data.filter (fun c => !c.isWhitespace))

/-- src/code.ts lines 87-95 (`getTextFont`): `FAMILY-STYLE.ttf` (style with
whitespace removed) and the font size scaled by 0.75. -/
def getTextFont (p : FigmaProps) : String × ℚ :=
  (p.fontFamily ++ "-" ++ stripSpaces p.fontStyle ++ ".ttf", p.fontSize * (3 / 4))

/-- src/code.ts lines 125-141 (`safelyExport`): the clone's forced
visibility, origin reset and disposal are host-side effects; the returned
payload is the host's SVG text with newlines stripped, and a failing export
propagates as the error of this call. -/
def safelyExport (p : FigmaProps) : Except String String :=
  p.svgExport.map stripNewlines

mutual
/-- An intermediate layout node as built by `createNode`: its constructor
tag, its `children` entry (`none` when the object literal carries no
`children` key at all, as for Image and Text nodes) and the remaining
fields in insertion order.  The `constructor` and `children` keys of the
source object literals are represented structurally; `fields` holds every
other entry. -/
inductive Obj where
  | mk (tag : String) (children : Option ObjList) (fields : List (String × JsValue))
/-- An ordered list of intermediate layout nodes. -/
inductive ObjList where
  | nil
  | cons (head : Obj) (tail : ObjList)
end

/-- The constructor tag of an intermediate node. -/
def Obj.tag : Obj → String
  | .mk t _ _ => t

/-- The children entry of an intermediate node. -/
def Obj.children : Obj → Option ObjList
  | .mk _ c _ => c

/-- The non-structural fields of an intermediate node. -/
def Obj.fields : Obj → List (String × JsValue)
  | .mk _ _ f => f

/-- The value of field `k`, when present. -/
def Obj.field (o : Obj) (k : String) : Option JsValue :=
  (o.fields.find? (fun kv => kv.1 == k)).map (fun kv => kv.2)

/-- Convert the mutual children list to a standard list. -/
def ObjList.toList : ObjList → List Obj
  | .nil => []
  | .cons o rest => o :: rest.toList

/-- Convert a source child list to a standard list. -/
def FigmaList.toList : FigmaList → List FigmaNode
  | .nil => []
  | .cons c rest => c :: rest.toList

/-- src/code.ts lines 144-145: a node is `"absolute"` when the parent is not
a frame-converted flex context or its own `layoutPositioning` (default
`"AUTO"`) is `"ABSOLUTE"`; otherwise `"relative"`. -/
def resolvePosition (p : FigmaProps) (parentIsFrame : Bool) : String :=
  if !parentIsFrame || p.layoutPositioning.getD "AUTO" == "ABSOLUTE" then "absolute" else "relative"

/-- src/code.ts lines 147-153: `left`/`top` are the node's own x/y when
absolute, and stay `undefined` when relative. -/
def resolveLeftTop (p : FigmaProps) (parentIsFrame : Bool) : JsValue × JsValue :=
  if resolvePosition p parentIsFrame = "absolute" then (.num p.x, .num p.y) else (.null, .null)

/-- src/code.ts lines 155-156: `layoutMode` defaults to `"row"` when absent,
then `layoutMode === "HORIZONTAL" && "row" || layoutMode === "VERTICAL" && "column"`. -/
def resolveFlexDirection (p : FigmaProps) : JsValue :=
  jsOr (jsAnd (.bool (p.layoutMode.getD "row" == "HORIZONTAL")) (.str "row"))
    (jsAnd (.bool (p.layoutMode.getD "row" == "VERTICAL")) (.str "column"))

/-- src/code.ts lines 158-159. -/
def resolveFlexWrap (p : FigmaProps) : JsValue :=
  jsOr (jsAnd (.bool (p.layoutWrap.getD "NO_WRAP" == "NO_WRAP")) (.str "nowrap"))
    (jsAnd (.bool (p.layoutWrap.getD "NO_WRAP" == "WRAP")) (.str "wrap"))

/-- src/code.ts lines 161-162. -/
def resolveJustifyContent (p : FigmaProps) : JsValue :=
  jsOr
    (jsOr
      (jsOr (jsAnd (.bool (p.primaryAxisAlignItems.getD "MIN" == "MIN")) (.str "flex-start"))
        (jsAnd (.bool (p.primaryAxisAlignItems.getD "MIN" == "MAX")) (.str "flex-end")))
      (jsAnd (.bool (p.primaryAxisAlignItems.getD "MIN" == "CENTER")) (.str "center")))
    (jsAnd (.bool (p.primaryAxisAlignItems.getD "MIN" == "SPACE_BETWEEN")) (.str "space-between"))

/-- src/code.ts lines 164-165 (note the source maps `MIN` to `"stretch"`). -/
def resolveAlignItems (p : FigmaProps) : JsValue :=
  jsOr
    (jsOr (jsAnd (.bool (p.counterAxisAlignItems.getD "MIN" == "MIN")) (.str "stretch"))
      (jsAnd (.bool (p.counterAxisAlignItems.getD "MIN" == "MAX")) (.str "flex-end")))
    (jsAnd (.bool (p.counterAxisAlignItems.getD "MIN" == "CENTER")) (.str "center"))

/-- An optional number as a JavaScript value (`undefined` when absent). -/
def optNum : Option ℚ → JsValue
  | some q => .num q
  | none => .null

/-- An optional packed color as a JavaScript value. -/
def optColor : Option Int → JsValue
  | some i => .num (i : ℚ)
  | none => .null

/-- Lift a sparse style record into field entries. -/
def numProps (l : List (String × ℚ)) : List (String × JsValue) :=
  l.map (fun kv => (kv.1, .num kv.2))

/-- JavaScript `value === "s"` for a value that may be a string or `false`. -/
def jsEqStr : JsValue → String → Bool
  | .str s, t => s == t
  | _, _ => false

/-- src/code.ts line 193: the material expression
`Layta.svgCreate(WIDTH, HEIGHT, 'SVG')` with the payload's newlines stripped
(a second time) at the call site. -/
def materialString (p : FigmaProps) (payload : String) : String :=
  "Layta.svgCreate(" ++ jsNumToString p.width ++ ", " ++ jsNumToString p.height ++ ", \x27" ++
    stripNewlines payload ++ "\x27)"

/-- src/code.ts lines 301-316: the `Layta.dxCreateFont(...) or "default"`
expression of a text node's `font` field. -/
def fontString (p : FigmaProps) : String :=
  "Layta.dxCreateFont(\"" ++ (getTextFont p).1 ++ "\", " ++ jsNumToString (getTextFont p).2 ++
    ", false, \"cleartype_natural\") or \"default\""

mutual
/-- src/code.ts lines 143-321 (`createNode`): dispatch on the node kind.
A container kind whose children are all vectors becomes a `Layta.Image`
leaf (rasterized through `safelyExport`, whose failure fails this call);
`FRAME`, `GROUP`/`COMPONENT` and `INSTANCE` become `Layta.Node` containers
whose children are converted by the per-child loop; `RECTANGLE` becomes a
`Layta.Node` leaf (with an empty `children` array); `TEXT` becomes
`Layta.Text`; anything else throws `Unsupported type`.  Field insertion
order follows the source object literals, with the spread style records
appended. -/
def createNode : FigmaNode → Bool → Bool → Bool → Except String Obj
  | .mk p cs, parentIsFrame, parentIsMainAxisRow, parentStretchItems =>
    let position := resolvePosition p parentIsFrame
    let lt := resolveLeftTop p parentIsFrame
    let flexDirection := resolveFlexDirection p
    let width := resolveWidth (p.layoutSizingHorizontal.getD "FIXED") p.width parentIsMainAxisRow
      parentStretchItems
    let height := resolveHeight (p.layoutSizingVertical.getD "FIXED") p.height parentIsMainAxisRow
      parentStretchItems
    let fillColor := optColor (getFillColor p)
    let strokeColor := optColor (getStrokeColor p)
    if (p.type == "FRAME" || p.type == "GROUP" || p.type == "COMPONENT" ||
        p.type == "INSTANCE") && p.hasChildrenProp && allVector cs then
      match safelyExport p with
      | .error e => .error e
      | .ok svg =>
        .ok (.mk "Layta.Image" none
          [("id", .str p.name), ("visible", .bool p.visible), ("position", .str position),
           ("left", lt.1), ("top", lt.2), ("width", width), ("height", height),
           ("foregroundColor", fillColor), ("material", .str (materialString p svg))])
    else if p.type == "FRAME" then
      .ok (.mk "Layta.Node" (some (createChildren cs true (jsEqStr flexDirection "row") true).1)
        ([("id", .str p.name), ("visible", .bool p.visible), ("position", .str position),
          ("left", lt.1), ("top", lt.2), ("flexDirection", flexDirection),
          ("flexWrap", resolveFlexWrap p), ("justifyContent", resolveJustifyContent p),
          ("alignItems", resolveAlignItems p), ("gap", optNum p.itemSpacing),
          ("width", width), ("height", height), ("fillColor", fillColor),
          ("strokeColor", strokeColor)] ++
          numProps (getStrokeWeightProps p) ++ numProps (getBorderRadiusProps p) ++
          numProps (getPaddingProps p)))
    else if p.type == "GROUP" || p.type == "COMPONENT" then
      .ok (.mk "Layta.Node" (some (createChildren cs false true true).1)
        [("id", .str p.name), ("visible", .bool p.visible), ("position", .str position),
         ("left", lt.1), ("top", lt.2), ("width", width), ("height", height)])
    else if p.type == "INSTANCE" then
      .ok (.mk "Layta.Node" (some (createChildren cs false (jsEqStr flexDirection "row") true).1)
        ([("id", .str p.name), ("visible", .bool p.visible), ("position", .str position),
          ("left", lt.1), ("top", lt.2), ("flexDirection", flexDirection),
          ("flexWrap", resolveFlexWrap p), ("justifyContent", resolveJustifyContent p),
          ("alignItems", resolveAlignItems p), ("gap", optNum p.itemSpacing),
          ("width", width), ("height", height), ("backgroundColor", fillColor),
          ("strokeColor", strokeColor)] ++
          numProps (getStrokeWeightProps p) ++ numProps (getBorderRadiusProps p)))
    else if p.type == "RECTANGLE" then
      .ok (.mk "Layta.Node" (some .nil)
        ([("id", .str p.name), ("visible", .bool p.visible), ("position", .str position),
          ("left", lt.1), ("top", lt.2), ("width", width), ("height", height),
          ("backgroundColor", fillColor), ("strokeColor", strokeColor)] ++
          numProps (getStrokeWeightProps p) ++ numProps (getBorderRadiusProps p)))
    else if p.type == "TEXT" then
      .ok (.mk "Layta.Text" none
        [("id", .str p.name), ("visible", .bool p.visible), ("position", .str position),
         ("left", lt.1), ("top", lt.2), ("text", .str p.characters),
         ("width", width), ("height", height), ("foregroundColor", optColor (getTextColor p)),
         ("font", .str (fontString p)), ("wordWrap", .bool (p.textAutoResize == "HEIGHT"))])
    else
      .error ("Unsupported type: " ++ p.type)
/-- src/code.ts lines 219-225 (and the analogous loops at 242-248 and
274-280): the per-child conversion loop.  A child that converts is pushed
onto the children sequence; a child whose conversion throws is skipped and
its error is sent to the diagnostic channel (`console.log`), collected here
as the second component. -/
def createChildren : FigmaList → Bool → Bool → Bool → ObjList × List String
  | .nil, _, _, _ => (.nil, [])
  | .cons c rest, pif, pr, ps =>
    match createNode c pif pr ps with
    | .ok o =>
      let r := createChildren rest pif pr ps
      (.cons o r.1, r.2)
    | .error e =>
      let r := createChildren rest pif pr ps
      (r.1, e :: r.2)
end

/-- src/code.ts line 328: the regex `value.replace(/^'(.*)'$/, "$1")` — strip
one pair of outer single quotes when the whole value is singly quoted and
the inner text spans one line (`.` does not match a newline). -/
def stripOuterQuotes (s : String) : String :=
  let cs := s.data
  if 2 ≤ cs.length ∧ cs.head? = some '\x27' ∧ cs.getLast? = some '\x27' ∧
      ((cs.drop 1).dropLast.all (fun c => !(c = '\n'))) = true then
    String.mk ((cs.drop 1).dropLast)
  else s

/-- src/code.ts line 328: one `key = value` argument entry.  The `font` and
`material` keys take the raw expression text (outer single quotes stripped;
an empty result falls back through the `||` to the serialized form); every
other value runs through `transpile`. -/
def entryStr (kv : String × JsValue) : String :=
  kv.1 ++ " = " ++
    (if kv.1 == "font" || kv.1 == "material" then
      match kv.2 with
      | .str s => if stripOuterQuotes s = "" then transpile (.str s) else stripOuterQuotes s
      | v => transpile v
    else transpile kv.2)

mutual
/-- src/code.ts lines 323-333 (`buildTree`): emit a constructor call.  A node
with no children entry (or an empty one) is the single-line
`Tag({props})`; otherwise the multi-line form with the argument record and
each child one indentation level deeper, children separated by `,\n`. -/
def buildTree : Obj → Nat → String
  | .mk tag children fields, level =>
    let props := joinSep ", " (fields.map entryStr)
    match children with
    | none => indentStr level ++ tag ++ "(\x7b" ++ props ++ "\x7d)"
    | some .nil => indentStr level ++ tag ++ "(\x7b" ++ props ++ "\x7d)"
    | some (.cons c rest) =>
      indentStr level ++ tag ++ "(\n" ++ indentStr (level + 1) ++ "\x7b" ++ props ++ "\x7d,\n" ++
        buildChildren (.cons c rest) (level + 1) ++ "\n" ++ indentStr level ++ ")"
/-- `children.map(child => buildTree(child, level + 1)).join(",\n")`. -/
def buildChildren : ObjList → Nat → String
  | .nil, _ => ""
  | .cons c .nil, level => buildTree c level
  | .cons c (.cons d rest), level => buildTree c level ++ ",\n" ++ buildChildren (.cons d rest) level
end

/-- A 200 by 50 rectangle with fixed sizing on both axes. -/
def rectProps : FigmaProps where
  type := "RECTANGLE"
  width := 200
  height := 50
  layoutSizingHorizontal := some "FIXED"
  layoutSizingVertical := some "FIXED"

/-- The rectangle node built from `rectProps`. -/
def rectNode : FigmaNode := .mk rectProps .nil

/-- A whitespace character of the emitted text (the emitter only produces
spaces and newlines between tokens). -/
def isWsChar (c : Char) : Bool := c = ' ' || c = '\n'

/-- Skip token-separating whitespace. -/
def skipWs : List Char → List Char
  | [] => []
  | c :: cs => if isWsChar c then skipWs cs else c :: cs

/-- An identifier character of the target grammar: letters, digits, `.` and
`_` (covering the emitted constructor tags such as `Layta.Node` and the
field keys). -/
def isIdentChar (c : Char) : Bool := c.isAlpha || c.isDigit || c = '.' || c = '_'

/-- Read the longest identifier run. -/
def takeIdent : List Char → List Char × List Char
  | [] => ([], [])
  | c :: cs =>
    if isIdentChar c then
      let r := takeIdent cs
      (c :: r.1, r.2)
    else ([], c :: cs)

/-- Read the longest digit run. -/
def takeDigits : List Char → List Char × List Char
  | [] => ([], [])
  | c :: cs =>
    if c.isDigit then
      let r := takeDigits cs
      (c :: r.1, r.2)
    else ([], c :: cs)

/-- The numeric value of a digit character. -/
def digitVal (c : Char) : Nat := c.toNat - 48

/-- The number a big-endian digit run denotes. -/
def digitsToNat (ds : List Char) : Nat := ds.foldl (fun a c => 10 * a + digitVal c) 0

/-- Modelled from the spec: a decimal integer literal of the target syntax
(optional minus sign, then digits). -/
def parseNum : List Char → Option (ℚ × List Char)
  | [] => none
  | c :: cs =>
    if c = '-' then
      let r := takeDigits cs
      if r.1 = [] then none else some (-(digitsToNat r.1 : ℚ), r.2)
    else
      let r := takeDigits (c :: cs)
      if r.1 = [] then none else some ((digitsToNat r.1 : ℚ), r.2)

mutual
/-- Modelled from the spec: the body of a double-quoted string literal —
`\c` denotes the character `c` (the emitter escapes embedded double quotes
as `\"`), any other character stands for itself, and an unterminated
literal fails. -/
def parseStringBody : List Char → Option (List Char × List Char)
  | [] => none
  | c :: cs =>
    if c = '"' then some ([], cs)
    else if c = '\\' then parseStringBodyEsc cs
    else (parseStringBody cs).map (fun p => (c :: p.1, p.2))
/-- The character following a backslash stands for itself. -/
def parseStringBodyEsc : List Char → Option (List Char × List Char)
  | [] => none
  | d :: cs => (parseStringBody cs).map (fun p => (d :: p.1, p.2))
end

/-- Consume an expected literal character sequence. -/
def expects : List Char → List Char → Option (List Char)
  | [], s => some s
  | p :: pre, c :: s => if c = p then expects pre s else none
  | _ :: _, [] => none

/-- Modelled from the spec: a scalar literal of the known grammar — a
string, `nil`, `true`, `false`, or a decimal number. -/
def parseValue (s : List Char) : Option (JsValue × List Char) :=
  match s with
  | [] => none
  | c :: cs =>
    if c = '"' then (parseStringBody cs).map (fun p => (.str (String.mk p.1), p.2))
    else if c = 'n' then (expects ['i', 'l'] cs).map (fun r => (.null, r))
    else if c = 't' then (expects ['r', 'u', 'e'] cs).map (fun r => (.bool true, r))
    else if c = 'f' then (expects ['a', 'l', 's', 'e'] cs).map (fun r => (.bool false, r))
    else (parseNum (c :: cs)).map (fun p => (.num p.1, p.2))

mutual
/-- A parsed constructor call: tag, ordered `field = value` set, ordered
children. -/
inductive CallTree where
  | mk (tag : String) (fields : List (String × JsValue)) (children : CallList)
/-- An ordered list of parsed constructor calls. -/
inductive CallList where
  | nil
  | cons (head : CallTree) (tail : CallList)
end

/-- Modelled from the spec: the brace-wrapped `key = value, ...` argument
record of a constructor call (the opening brace has already been
consumed). -/
def parseFields : Nat → List Char → Option (List (String × JsValue) × List Char)
  | 0, _ => none
  | f + 1, s =>
    match skipWs s with
    | [] => none
    | c :: cs =>
      if c = '\x7d' then some ([], cs)
      else
        let k := takeIdent (c :: cs)
        if k.1 = [] then none
        else
          match skipWs k.2 with
          | '=' :: r2 =>
            match parseValue (skipWs r2) with
            | none => none
            | some (v, r3) =>
              match skipWs r3 with
              | ',' :: r4 => (parseFields f r4).map (fun p => ((String.mk k.1, v) :: p.1, p.2))
              | '\x7d' :: r4 => some ([(String.mk k.1, v)], r4)
              | _ => none
          | _ => none
    
mutual
/-- Modelled from the spec: a nested constructor call of the known grammar —
`Tag({fields})` or `Tag(\n  {fields},\n  child, ...\n)`, whitespace
insignificant between tokens. -/
def parseCall : Nat → List Char → Option (CallTree × List Char)
  | 0, _ => none
  | f + 1, s =>
    let t := takeIdent (skipWs s)
    if t.1 = [] then none
    else
      match t.2 with
      | '(' :: r2 =>
        match skipWs r2 with
        | '\x7b' :: r3 =>
          match parseFields (f + 1) r3 with
          | none => none
          | some (fs, r4) =>
            match skipWs r4 with
            | ')' :: r5 => some (.mk (String.mk t.1) fs .nil, r5)
            | ',' :: r5 =>
              match parseChildren f r5 with
              | none => none
              | some (cl, r6) => some (.mk (String.mk t.1) fs cl, r6)
            | _ => none
        | _ => none
      | _ => none
/-- Modelled from the spec: the comma-separated child calls of a container,
terminated by the closing parenthesis. -/
def parseChildren : Nat → List Char → Option (CallList × List Char)
  | 0, _ => none
  | f + 1, s =>
    match parseCall f s with
    | none => none
    | some (t, r1) =>
      match skipWs r1 with
      | ',' :: r2 => (parseChildren f r2).map (fun p => (.cons t p.1, p.2))
      | ')' :: r2 => some (.cons t .nil, r2)
      | _ => none
end

/-- Parse a complete emitted text as one constructor call with nothing left
over; the fuel is one more than the input length, enough for any parse. -/
def parseTop (s : String) : Option CallTree :=
  match parseCall (s.data.length + 1) s.data with
  | some (t, []) => some t
  | _ => none

mutual
/-- The call tree an intermediate node denotes: same tag, same ordered field
set, children in order (an absent and an empty children entry both denote a
leaf call). -/
def toCall : Obj → CallTree
  | .mk tag children fields =>
    .mk tag fields
      (match children with
       | none => .nil
       | some l => toCallList l)
/-- The call list of a children sequence. -/
def toCallList : ObjList → CallList
  | .nil => .nil
  | .cons o rest => .cons (toCall o) (toCallList rest)
end

/-- String contents that survive the emitter's quote-only escaping: no
backslash anywhere. -/
def goodStringChars (l : List Char) : Bool := l.all (fun c => !(c = '\\'))

/-- A name the grammar reads back exactly: nonempty and made of identifier
characters. -/
def goodIdent (s : String) : Bool := !s.data.isEmpty && s.data.all isIdentChar

/-- A field value that is present and of a round-trippable kind: a boolean,
an integral number (JavaScript float formatting is out of the embedding's
scope), or a backslash-free string. -/
def goodVal : JsValue → Bool
  | .bool _ => true
  | .num q => q.den == 1
  | .str s => goodStringChars s.data
  | _ => false

/-- A round-trippable field: identifier key, not one of the raw-expression
keys (`font`, `material`), and a good value. -/
def goodField (kv : String × JsValue) : Bool :=
  goodIdent kv.1 && !(kv.1 == "font") && !(kv.1 == "material") && goodVal kv.2

mutual
/-- An intermediate tree with every field present and of supported kind, in
the sense of the round-trip claim. -/
def goodObj : Obj → Bool
  | .mk tag children fields =>
    goodIdent tag && fields.all goodField &&
      (match children with
       | none => true
       | some l => goodList l)
/-- All members of a children sequence are round-trippable. -/
def goodList : ObjList → Bool
  | .nil => true
  | .cons o rest => goodObj o && goodList rest
end

mutual
/-- A parser-fuel bound for one node: enough fuel to read its fields and
descend into its children. -/
def objWeight : Obj → Nat
  | .mk _ children fields =>
    2 + fields.length +
      (match children with
       | none => 0
       | some l => listWeight l)
/-- The parser-fuel bound of a children sequence. -/
def listWeight : ObjList → Nat
  | .nil => 0
  | .cons o rest => objWeight o + 1 + listWeight rest
end

def demoObj : Obj :=
  .mk "Layta.Node" (some (.cons (.mk "Layta.Text" none [("id", .str "t"), ("n", .num 3)]) .nil))
    [("id", .str "root"), ("visible", .bool true), ("gap", .num (-2))]

/-- The error message of a failed conversion, if any. -/
def errOf : Except String Obj → Option String
  | .error e => some e
  | .ok _ => none

/-- A rectangle whose fixed measured width is exactly 0. -/
def zeroRectProps : FigmaProps where
  type := "RECTANGLE"
  width := 0
  height := 50
  layoutSizingHorizontal := some "FIXED"
  layoutSizingVertical := some "FIXED"

/-- The zero-width rectangle node. -/
def zeroRectNode : FigmaNode := .mk zeroRectProps .nil

/-- A node carrying all three four-sided style groups: uniform positive
radii, differing stroke weights (one of them zero), and all-zero padding. -/
def c3props : FigmaProps where
  type := "FRAME"
  cornerRadii := some (5, 5, 5, 5)
  strokeWeights := some (1, 2, 0, 3)
  paddings := some (0, 0, 0, 0)

/-- A vector child (a bare `VECTOR` node reaching `createNode` falls into the
final `Unsupported type` branch). -/
def vecNode : FigmaNode := .mk { type := "VECTOR" } .nil

/-- A second rectangle child. -/
def rect2Props : FigmaProps where
  type := "RECTANGLE"
  name := "r2"
  width := 30
  height := 40
  layoutSizingHorizontal := some "FIXED"
  layoutSizingVertical := some "FIXED"

/-- The second rectangle node. -/
def rect2Node : FigmaNode := .mk rect2Props .nil

/-- A horizontal auto-layout frame. -/
def frameProps : FigmaProps where
  type := "FRAME"
  name := "f"
  layoutMode := some "HORIZONTAL"
  layoutWrap := some "NO_WRAP"
  primaryAxisAlignItems := some "MIN"
  counterAxisAlignItems := some "MIN"
  itemSpacing := some 8
  layoutSizingHorizontal := some "FIXED"
  layoutSizingVertical := some "FIXED"
  width := 100
  height := 60
  hasChildrenProp := true

/-- The frame's children: a rectangle, a lone vector (whose conversion
fails), and another rectangle. -/
def frameKids : FigmaList := .cons rectNode (.cons vecNode (.cons rect2Node .nil))

/-- The frame node with one failing child between two good ones. -/
def frameNode : FigmaNode := .mk frameProps frameKids

/-- A component whose children are all vectors and whose export succeeds. -/
def imgProps : FigmaProps where
  type := "COMPONENT"
  name := "icon"
  width := 10
  height := 20
  layoutSizingHorizontal := some "FIXED"
  layoutSizingVertical := some "FIXED"
  hasChildrenProp := true
  svgExport := .ok "<svg/>"

/-- The vector-only container node. -/
def imgNode : FigmaNode := .mk imgProps (.cons vecNode (.cons vecNode .nil))

/-- A frame with an empty children sequence and a successful export. -/
def emptyProps : FigmaProps where
  type := "FRAME"
  name := "empty"
  width := 12
  height := 34
  layoutSizingHorizontal := some "FIXED"
  layoutSizingVertical := some "FIXED"
  hasChildrenProp := true
  svgExport := .ok "<svg2/>"

/-- The empty container node. -/
def emptyNode : FigmaNode := .mk emptyProps .nil

/-- A relatively positioned rectangle child (its `layoutPositioning` is
`"AUTO"`). -/
def instChildProps : FigmaProps where
  type := "RECTANGLE"
  name := "child"
  x := 3
  y := 4
  width := 20
  height := 10
  layoutPositioning := some "AUTO"
  layoutSizingHorizontal := some "FIXED"
  layoutSizingVertical := some "FIXED"

/-- The instance's rectangle child. -/
def instChildNode : FigmaNode := .mk instChildProps .nil

/-- A horizontal auto-layout (flex container) instance. -/
def instProps : FigmaProps where
  type := "INSTANCE"
  name := "inst"
  layoutMode := some "HORIZONTAL"
  width := 80
  height := 40
  layoutSizingHorizontal := some "FIXED"
  layoutSizingVertical := some "FIXED"
  hasChildrenProp := true

/-- The instance node with its relatively positioned child. -/
def instNode : FigmaNode := .mk instProps (.cons instChildNode .nil)

/-- An intermediate tree whose `id` field is the single-character string
`\` (a backslash): present, of string kind. -/
def backslashObj : Obj := .mk "N" none [("id", .str "\\")]

/-- Shared helper: the uniform positive case collapses to the shorthand
key. -/
theorem fourSided_uniform {a b c d : ℚ} (hab : a = b) (hbc : b = c) (hcd : c = d) (ha : 0 < a)
    (kAll k1 k2 k3 k4 : String) :
    fourSided a b c d kAll k1 k2 k3 k4 = [(kAll, a)] := by
  subst hcd; subst hbc; subst hab
  simp [fourSided, ha]

/-- Shared helper: when the four values are not all equal, the group emits
exactly the strictly positive per-side entries, in source order. -/
theorem fourSided_differ {a b c d : ℚ} (h : ¬(a = b ∧ b = c ∧ c = d))
    (kAll k1 k2 k3 k4 : String) :
    fourSided a b c d kAll k1 k2 k3 k4 =
      (if 0 < a then [(k1, a)] else []) ++ (if 0 < b then [(k2, b)] else []) ++
      (if 0 < c then [(k3, c)] else []) ++ (if 0 < d then [(k4, d)] else []) := by
  have h' : ¬(a = b ∧ b = c ∧ c = d ∧ 0 < a) := fun hh => h ⟨hh.1, hh.2.1, hh.2.2.1⟩
  simp only [fourSided, h', if_false]

/-- Shared helper: the all-zero group emits nothing. -/
theorem fourSided_zero (kAll k1 k2 k3 k4 : String) :
    fourSided (0 : ℚ) 0 0 0 kAll k1 k2 k3 k4 = [] := by
  simp [fourSided]

/-- Shared helper: membership in one conditional singleton forces a positive
value. -/
theorem mem_if_singleton {x : ℚ} {k : String} {kv : String × ℚ}
    (h : kv ∈ (if 0 < x then [(k, x)] else [])) : 0 < kv.2 := by
  by_cases hx : 0 < x
  · rw [if_pos hx] at h
    simp at h
    rw [h]
    exact hx
  · rw [if_neg hx] at h
    simp at h

/-- Shared helper: every emitted entry of a four-sided group carries a
strictly positive value. -/
theorem fourSided_pos {a b c d : ℚ} (kAll k1 k2 k3 k4 : String) :
    ∀ kv ∈ fourSided a b c d kAll k1 k2 k3 k4, 0 < kv.2 := by
  intro kv hkv
  unfold fourSided at hkv
  split at hkv
  · next hcond =>
    simp at hkv
    rw [hkv]
    exact hcond.2.2.2
  · simp only [List.mem_append] at hkv
    rcases hkv with ((hv | hv) | hv) | hv <;> exact mem_if_singleton hv

/-- Shared helper: when the four values are not all equal the shorthand key
is absent (provided it differs from the four per-side keys). -/
theorem fourSided_shorthand_not_mem {a b c d : ℚ} {kAll k1 k2 k3 k4 : String}
    (h : ¬(a = b ∧ b = c ∧ c = d))
    (h1 : kAll ≠ k1) (h2 : kAll ≠ k2) (h3 : kAll ≠ k3) (h4 : kAll ≠ k4) :
    ∀ v, (kAll, v) ∉ fourSided a b c d kAll k1 k2 k3 k4 := by
  intro v hv
  rw [fourSided_differ h] at hv
  simp only [List.mem_append] at hv
  rcases hv with ((hv | hv) | hv) | hv <;> (revert hv; split <;> simp_all)

/-- C3: for every four-sided style group (border radius, stroke weight,
padding): all four equal and strictly positive gives exactly the one
shorthand entry; not all equal gives exactly the strictly-positive per-side
entries and never the shorthand key; all zero gives an empty output; and no
emitted entry ever carries a non-positive (in particular zero) value. -/
theorem c3_four_sided_collapse (p : FigmaProps) (a b c d : ℚ) :
    (p.cornerRadii = some (a, b, c, d) →
      ((a = b ∧ b = c ∧ c = d ∧ 0 < a → getBorderRadiusProps p = [("borderRadius", a)]) ∧
       (¬(a = b ∧ b = c ∧ c = d) →
         getBorderRadiusProps p =
           (if 0 < a then [("borderTopLeftRadius", a)] else []) ++
           (if 0 < b then [("borderTopRightRadius", b)] else []) ++
           (if 0 < c then [("borderBottomLeftRadius", c)] else []) ++
           (if 0 < d then [("borderBottomRightRadius", d)] else []) ∧
         ∀ v, ("borderRadius", v) ∉ getBorderRadiusProps p) ∧
       (a = 0 ∧ b = 0 ∧ c = 0 ∧ d = 0 → getBorderRadiusProps p = []) ∧
       (∀ kv ∈ getBorderRadiusProps p, 0 < kv.2))) ∧
    (p.strokeWeights = some (a, b, c, d) →
      ((a = b ∧ b = c ∧ c = d ∧ 0 < a → getStrokeWeightProps p = [("strokeWeight", a)]) ∧
       (¬(a = b ∧ b = c ∧ c = d) →
         getStrokeWeightProps p =
           (if 0 < a then [("strokeLeftWeight", a)] else []) ++
           (if 0 < b then [("strokeTopWeight", b)] else []) ++
           (if 0 < c then [("strokeRightWeight", c)] else []) ++
           (if 0 < d then [("strokeBottomWeight", d)] else []) ∧
         ∀ v, ("strokeWeight", v) ∉ getStrokeWeightProps p) ∧
       (a = 0 ∧ b = 0 ∧ c = 0 ∧ d = 0 → getStrokeWeightProps p = []) ∧
       (∀ kv ∈ getStrokeWeightProps p, 0 < kv.2))) ∧
    (p.paddings = some (a, b, c, d) →
      ((a = b ∧ b = c ∧ c = d ∧ 0 < a → getPaddingProps p = [("padding", a)]) ∧
       (¬(a = b ∧ b = c ∧ c = d) →
         getPaddingProps p =
           (if 0 < a then [("paddingLeft", a)] else []) ++
           (if 0 < b then [("paddingTop", b)] else []) ++
           (if 0 < c then [("paddingRight", c)] else []) ++
           (if 0 < d then [("paddingBottom", d)] else []) ∧
         ∀ v, ("padding", v) ∉ getPaddingProps p) ∧
       (a = 0 ∧ b = 0 ∧ c = 0 ∧ d = 0 → getPaddingProps p = []) ∧
       (∀ kv ∈ getPaddingProps p, 0 < kv.2))) := by
  refine ⟨fun h => ?_, fun h => ?_, fun h => ?_⟩ <;>
    [rw [show getBorderRadiusProps p =
        fourSided a b c d "borderRadius" "borderTopLeftRadius" "borderTopRightRadius"
          "borderBottomLeftRadius" "borderBottomRightRadius" by
        simp [getBorderRadiusProps, h]];
     rw [show getStrokeWeightProps p =
        fourSided a b c d "strokeWeight" "strokeLeftWeight" "strokeTopWeight" "strokeRightWeight"
          "strokeBottomWeight" by
        simp [getStrokeWeightProps, h]];
     rw [show getPaddingProps p =
        fourSided a b c d "padding" "paddingLeft" "paddingTop" "paddingRight" "paddingBottom" by
        simp [getPaddingProps, h]]] <;>
  exact ⟨fun hh => fourSided_uniform hh.1 hh.2.1 hh.2.2.1 hh.2.2.2 _ _ _ _ _,
         fun hd => ⟨fourSided_differ hd _ _ _ _ _,
           fourSided_shorthand_not_mem hd (by decide) (by decide) (by decide) (by decide)⟩,
         fun hz => by rw [hz.1, hz.2.1, hz.2.2.1, hz.2.2.2]; exact fourSided_zero _ _ _ _ _,
         fourSided_pos _ _ _ _ _⟩

/-- C3 witness: the three groups of `c3props` — uniform radii 5 collapse to
the shorthand, the differing weights (1, 2, 0, 3) emit only their positive
per-side keys, and the all-zero padding emits nothing. -/
theorem c3_four_sided_collapse_witness :
    getBorderRadiusProps c3props = [("borderRadius", 5)] ∧
    getStrokeWeightProps c3props =
      [("strokeLeftWeight", 1), ("strokeTopWeight", 2), ("strokeBottomWeight", 3)] ∧
    getPaddingProps c3props = [] := by
  refine ⟨((c3_four_sided_collapse c3props 5 5 5 5).1 rfl).1 ⟨rfl, rfl, rfl, by norm_num⟩, ?_, 
    ((c3_four_sided_collapse c3props 0 0 0 0).2.2 rfl).2.2.1 ⟨rfl, rfl, rfl, rfl⟩⟩
  have h := ((c3_four_sided_collapse c3props 1 2 0 3).2.1 rfl).2.1 (by norm_num)
  rw [h.1]
  norm_num

/-- C1 counterexample: with fixed sizing and a measured length of exactly 0,
the truthy chain of src/code.ts line 170 skips the `FIXED` branch (0 is
falsy) and every later branch, so the resolver emits the JavaScript value
`false` — not the concrete value 0 the claim requires; the same happens on a
whole zero-width fixed rectangle. -/
theorem c1_counterexample :
    resolveWidth "FIXED" 0 true true = JsValue.bool false ∧
    resolveWidth "FIXED" 0 true true ≠ JsValue.num 0 ∧
    (createNode zeroRectNode false true true).toOption.bind (fun o => o.field "width") =
      some (JsValue.bool false) :=
  ⟨rfl, fun h => JsValue.noConfusion (show JsValue.bool false = JsValue.num 0 from h), rfl⟩

/-- C1 (amended): for every *nonzero* measured length, a fixed-sizing axis
resolves to the node's own measured length as a concrete value (and the
200 by 50 fixed rectangle yields a leaf node with concrete width 200 and
height 50); at a measured length of exactly 0 the resolver instead emits the
`false` marker (see the counterexample). -/
theorem c1_fixed_sizing_amended :
    (∀ (w : ℚ) (p s : Bool), w ≠ 0 → resolveWidth "FIXED" w p s = JsValue.num w) ∧
    (∀ (h : ℚ) (p s : Bool), h ≠ 0 → resolveHeight "FIXED" h p s = JsValue.num h) ∧
    ((createNode rectNode false true true).toOption.bind (fun o => o.field "width") =
        some (JsValue.num 200) ∧
     (createNode rectNode false true true).toOption.bind (fun o => o.field "height") =
        some (JsValue.num 50) ∧
     (createNode rectNode false true true).toOption.map Obj.tag = some "Layta.Node") := by
  refine ⟨fun w p s hw => ?_, fun h p s hh => ?_, rfl, rfl, rfl⟩
  · simp [resolveWidth, jsAnd, jsOr, truthy, hw]
  · simp [resolveHeight, jsAnd, jsOr, truthy, hh]

/-- C1 witness: the amended statement at the concrete measured lengths 200
and 50. -/
theorem c1_fixed_sizing_amended_witness :
    resolveWidth "FIXED" 200 true true = JsValue.num 200 ∧
    resolveHeight "FIXED" 50 false true = JsValue.num 50 :=
  ⟨c1_fixed_sizing_amended.1 200 true true (by norm_num),
   c1_fixed_sizing_amended.2.1 50 false true (by norm_num)⟩

/-- C4: with fill sizing, the width resolves to the `"auto"` marker exactly
when the width is the parent's cross axis (the parent's main axis is not the
row direction) and the parent stretches its children, and to the `"100%"`
marker in every other case; symmetrically, the height resolves to `"auto"`
exactly when the parent's main axis is the row direction (making the height
the cross axis) and the parent stretches, else `"100%"`. -/
theorem c4_fill_sizing :
    ∀ (len : ℚ) (parentIsMainAxisRow parentStretchItems : Bool),
      resolveWidth "FILL" len parentIsMainAxisRow parentStretchItems =
        (if !parentIsMainAxisRow && parentStretchItems then JsValue.str "auto"
         else JsValue.str "100%") ∧
      resolveHeight "FILL" len parentIsMainAxisRow parentStretchItems =
        (if parentIsMainAxisRow && parentStretchItems then JsValue.str "auto"
         else JsValue.str "100%") := by
  intro len p s
  cases p <;> cases s <;> exact ⟨rfl, rfl⟩

/-- Shared helper: the packed value of opaque red. -/
theorem packColor_red : packColor 1 0 0 1 = -65536 := by
  simp only [packColor]
  rw [show max (0:ℚ) (min 1 1) * 255 = 255 by norm_num,
      show max (0:ℚ) (min 1 0) * 255 = 0 by norm_num]
  decide

/-- C5 counterexample: `packColor(1, 0, 0, 1)` does not return 4294901760 —
the JavaScript `|` operator yields a *signed* 32-bit result, so the returned
number is -65536. -/
theorem c5_packcolor_counterexample : packColor 1 0 0 1 ≠ 4294901760 := by
  rw [packColor_red]
  decide

/-- C5 (amended): packing opaque red returns -65536, the signed 32-bit
reading of the pattern 0xFFFF0000; that pattern is exactly the claimed
32-bit value, laid out alpha:red:green:blue with alpha in the most
significant byte (bytes 255, 255, 0, 0 from most to least significant). -/
theorem c5_packcolor_amended :
    packColor 1 0 0 1 = -65536 ∧
    toUint32 (packColor 1 0 0 1) = 0xFFFF0000 ∧
    toUint32 (packColor 1 0 0 1) / 2 ^ 24 = 255 ∧
    toUint32 (packColor 1 0 0 1) / 2 ^ 16 % 256 = 255 ∧
    toUint32 (packColor 1 0 0 1) / 2 ^ 8 % 256 = 0 ∧
    toUint32 (packColor 1 0 0 1) % 256 = 0 := by
  rw [packColor_red]
  exact ⟨rfl, by decide, by decide, by decide, by decide, by decide⟩

/-- C6: the serializer's key test is the literal regex
`/^[aZAZ][aZAZ09]*$/` of src/code.ts line 113, whose character classes lost
the dashes of an intended `[a-zA-Z][a-zA-Z0-9]*`.  The claimed example
`{a: 1, "b-c": 2}` does serialize with `a` bare and `b-c` bracket-quoted,
but the ordinary alphabetic key `width` fails the mangled class (its first
character is not one of a, Z, A) and is bracket-quoted, contradicting the
claim that every simple identifier key is emitted bare. -/
theorem c6_serializer_key_bug :
    transpile (.obj (.cons "width" (.num 1) .nil)) = "\x7b\n  [\"width\"] = 1\n\x7d" ∧
    matchesKeyRegex "width" = false ∧
    transpile (.obj (.cons "a" (.num 1) (.cons "b-c" (.num 2) .nil))) =
      "\x7b\n  a = 1,\n  [\"b-c\"] = 2\n\x7d" ∧
    matchesKeyRegex "a" = true ∧
    matchesKeyRegex "b-c" = false ∧
    matchesKeyRegex "Layta" = false :=
  ⟨rfl, rfl, rfl, rfl, rfl, rfl⟩

/-- Shared helper: the vector-only reclassification branch of `createNode`
(src/code.ts lines 182-195), with a successful export. -/
theorem createNode_image_ok (p : FigmaProps) (cs : FigmaList) (pif pr ps : Bool) (svg : String)
    (htype : (p.type == "FRAME" || p.type == "GROUP" || p.type == "COMPONENT" ||
      p.type == "INSTANCE") = true)
    (hkids : p.hasChildrenProp = true) (hvec : allVector cs = true)
    (hexp : p.svgExport = Except.ok svg) :
    createNode (.mk p cs) pif pr ps = Except.ok (Obj.mk "Layta.Image" none
      [("id", .str p.name), ("visible", .bool p.visible),
       ("position", .str (resolvePosition p pif)),
       ("left", (resolveLeftTop p pif).1), ("top", (resolveLeftTop p pif).2),
       ("width", resolveWidth (p.layoutSizingHorizontal.getD "FIXED") p.width pr ps),
       ("height", resolveHeight (p.layoutSizingVertical.getD "FIXED") p.height pr ps),
       ("foregroundColor", optColor (getFillColor p)),
       ("material", .str (materialString p (stripNewlines svg)))]) := by
  simp only [createNode]
  rw [htype, hkids, hvec]
  simp [safelyExport, hexp, Except.map]

/-- Shared helper: the `FRAME` container branch of `createNode`
(src/code.ts lines 196-228): children are converted with
`parentIsFrame = true` and the frame's own main-axis direction. -/
theorem createNode_frame_ok (p : FigmaProps) (cs : FigmaList) (pif pr ps : Bool)
    (htype : p.type = "FRAME") (himg : (p.hasChildrenProp && allVector cs) = false) :
    createNode (.mk p cs) pif pr ps = Except.ok (Obj.mk "Layta.Node"
      (some (createChildren cs true (jsEqStr (resolveFlexDirection p) "row") true).1)
      ([("id", .str p.name), ("visible", .bool p.visible),
        ("position", .str (resolvePosition p pif)),
        ("left", (resolveLeftTop p pif).1), ("top", (resolveLeftTop p pif).2),
        ("flexDirection", resolveFlexDirection p), ("flexWrap", resolveFlexWrap p),
        ("justifyContent", resolveJustifyContent p), ("alignItems", resolveAlignItems p),
        ("gap", optNum p.itemSpacing),
        ("width", resolveWidth (p.layoutSizingHorizontal.getD "FIXED") p.width pr ps),
        ("height", resolveHeight (p.layoutSizingVertical.getD "FIXED") p.height pr ps),
        ("fillColor", optColor (getFillColor p)),
        ("strokeColor", optColor (getStrokeColor p))] ++
        numProps (getStrokeWeightProps p) ++ numProps (getBorderRadiusProps p) ++
        numProps (getPaddingProps p))) := by
  simp only [createNode]
  rw [htype]
  simp [himg]

/-- Shared helper: the `GROUP`/`COMPONENT` container branch of `createNode`
(src/code.ts lines 229-251): children are converted with
`parentIsFrame = false`. -/
theorem createNode_group_ok (p : FigmaProps) (cs : FigmaList) (pif pr ps : Bool)
    (htype : p.type = "GROUP" ∨ p.type = "COMPONENT")
    (himg : (p.hasChildrenProp && allVector cs) = false) :
    createNode (.mk p cs) pif pr ps = Except.ok (Obj.mk "Layta.Node"
      (some (createChildren cs false true true).1)
      [("id", .str p.name), ("visible", .bool p.visible),
       ("position", .str (resolvePosition p pif)),
       ("left", (resolveLeftTop p pif).1), ("top", (resolveLeftTop p pif).2),
       ("width", resolveWidth (p.layoutSizingHorizontal.getD "FIXED") p.width pr ps),
       ("height", resolveHeight (p.layoutSizingVertical.getD "FIXED") p.height pr ps)]) := by
  simp only [createNode]
  rcases htype with h | h <;> rw [h] <;> simp [himg]

/-- Shared helper: the `INSTANCE` container branch of `createNode`
(src/code.ts lines 252-283): children are converted with
`parentIsFrame = false` and the instance's own main-axis direction. -/
theorem createNode_instance_ok (p : FigmaProps) (cs : FigmaList) (pif pr ps : Bool)
    (htype : p.type = "INSTANCE") (himg : (p.hasChildrenProp && allVector cs) = false) :
    createNode (.mk p cs) pif pr ps = Except.ok (Obj.mk "Layta.Node"
      (some (createChildren cs false (jsEqStr (resolveFlexDirection p) "row") true).1)
      ([("id", .str p.name), ("visible", .bool p.visible),
        ("position", .str (resolvePosition p pif)),
        ("left", (resolveLeftTop p pif).1), ("top", (resolveLeftTop p pif).2),
        ("flexDirection", resolveFlexDirection p), ("flexWrap", resolveFlexWrap p),
        ("justifyContent", resolveJustifyContent p), ("alignItems", resolveAlignItems p),
        ("gap", optNum p.itemSpacing),
        ("width", resolveWidth (p.layoutSizingHorizontal.getD "FIXED") p.width pr ps),
        ("height", resolveHeight (p.layoutSizingVertical.getD "FIXED") p.height pr ps),
        ("backgroundColor", optColor (getFillColor p)),
        ("strokeColor", optColor (getStrokeColor p))] ++
        numProps (getStrokeWeightProps p) ++ numProps (getBorderRadiusProps p))) := by
  simp only [createNode]
  rw [htype]
  simp [himg]

/-- Shared helper: the `RECTANGLE` leaf branch of `createNode`
(src/code.ts lines 284-300): a `Layta.Node` with an empty children array. -/
theorem createNode_rect_ok (p : FigmaProps) (cs : FigmaList) (pif pr ps : Bool)
    (htype : p.type = "RECTANGLE") :
    createNode (.mk p cs) pif pr ps = Except.ok (Obj.mk "Layta.Node" (some .nil)
      ([("id", .str p.name), ("visible", .bool p.visible),
        ("position", .str (resolvePosition p pif)),
        ("left", (resolveLeftTop p pif).1), ("top", (resolveLeftTop p pif).2),
        ("width", resolveWidth (p.layoutSizingHorizontal.getD "FIXED") p.width pr ps),
        ("height", resolveHeight (p.layoutSizingVertical.getD "FIXED") p.height pr ps),
        ("backgroundColor", optColor (getFillColor p)),
        ("strokeColor", optColor (getStrokeColor p))] ++
        numProps (getStrokeWeightProps p) ++ numProps (getBorderRadiusProps p))) := by
  simp only [createNode]
  rw [htype]
  simp

/-- Shared helper: the per-child loop keeps exactly the children whose
conversion succeeds (in order) and logs exactly the error messages of the
children whose conversion fails (in order). -/
theorem createChildren_spec : ∀ (cs : FigmaList) (pif pr ps : Bool),
    ((createChildren cs pif pr ps).1).toList =
      cs.toList.filterMap (fun c => (createNode c pif pr ps).toOption) ∧
    (createChildren cs pif pr ps).2 =
      cs.toList.filterMap (fun c => errOf (createNode c pif pr ps))
  | .nil, pif, pr, ps => by
    simp [createChildren, FigmaList.toList, ObjList.toList]
  | .cons c rest, pif, pr, ps => by
    have ih := createChildren_spec rest pif pr ps
    cases hc : createNode c pif pr ps with
    | ok o =>
      simp [createChildren, hc, FigmaList.toList, ObjList.toList, Except.toOption, errOf,
        ih.1, ih.2]
    | error e =>
      simp [createChildren, hc, FigmaList.toList, Except.toOption, errOf, ih.1, ih.2]

/-- C7: converting a container's children never aborts the parent — for every
container branch the parent conversion succeeds and its children sequence is
the output of the per-child loop, which (first conjunct) keeps exactly the
successfully converted children in source order, omits exactly the failed
ones, and reports each failure's message only to the diagnostic log. -/
theorem c7_child_failure_isolated :
    (∀ (cs : FigmaList) (pif pr ps : Bool),
      ((createChildren cs pif pr ps).1).toList =
        cs.toList.filterMap (fun c => (createNode c pif pr ps).toOption) ∧
      (createChildren cs pif pr ps).2 =
        cs.toList.filterMap (fun c => errOf (createNode c pif pr ps))) ∧
    (∀ (p : FigmaProps) (cs : FigmaList) (pif pr ps : Bool),
      p.type = "FRAME" → (p.hasChildrenProp && allVector cs) = false →
      ∃ o, createNode (.mk p cs) pif pr ps = Except.ok o ∧
        o.children = some (createChildren cs true (jsEqStr (resolveFlexDirection p) "row") true).1) ∧
    (∀ (p : FigmaProps) (cs : FigmaList) (pif pr ps : Bool),
      p.type = "GROUP" ∨ p.type = "COMPONENT" → (p.hasChildrenProp && allVector cs) = false →
      ∃ o, createNode (.mk p cs) pif pr ps = Except.ok o ∧
        o.children = some (createChildren cs false true true).1) ∧
    (∀ (p : FigmaProps) (cs : FigmaList) (pif pr ps : Bool),
      p.type = "INSTANCE" → (p.hasChildrenProp && allVector cs) = false →
      ∃ o, createNode (.mk p cs) pif pr ps = Except.ok o ∧
        o.children = some (createChildren cs false (jsEqStr (resolveFlexDirection p) "row") true).1) := by
  refine ⟨createChildren_spec, ?_, ?_, ?_⟩
  · intro p cs pif pr ps htype himg
    exact ⟨_, createNode_frame_ok p cs pif pr ps htype himg, rfl⟩
  · intro p cs pif pr ps htype himg
    exact ⟨_, createNode_group_ok p cs pif pr ps htype himg, rfl⟩
  · intro p cs pif pr ps htype himg
    exact ⟨_, createNode_instance_ok p cs pif pr ps htype himg, rfl⟩

/-- C7 witness: the frame whose middle child is a lone vector — the loop
keeps the two rectangles in order, drops exactly the vector, and logs its
`Unsupported type` error; the frame conversion itself succeeds. -/
theorem c7_child_failure_isolated_witness :
    ((createChildren frameKids true true true).1).toList =
      frameKids.toList.filterMap (fun c => (createNode c true true true).toOption) ∧
    (createChildren frameKids true true true).2 = ["Unsupported type: VECTOR"] ∧
    ((createChildren frameKids true true true).1).toList.length = 2 ∧
    (∃ o, createNode frameNode false true true = Except.ok o ∧
      o.children =
        some (createChildren frameKids true (jsEqStr (resolveFlexDirection frameProps) "row") true).1) :=
  ⟨(c7_child_failure_isolated.1 frameKids true true true).1, rfl, rfl,
   c7_child_failure_isolated.2.1 frameProps frameKids false true true rfl rfl⟩

/-- C8: a node of container kind whose every child is a Vector is converted
(when the host export succeeds) to a `Layta.Image` leaf — never a container:
the result carries no children entry at all and its `material` field holds
the rasterized payload reference. -/
theorem c8_vector_only_image :
    ∀ (p : FigmaProps) (cs : FigmaList) (pif pr ps : Bool) (svg : String),
      (p.type = "FRAME" ∨ p.type = "GROUP" ∨ p.type = "COMPONENT" ∨ p.type = "INSTANCE") →
      p.hasChildrenProp = true → allVector cs = true → p.svgExport = Except.ok svg →
      ∃ o, createNode (.mk p cs) pif pr ps = Except.ok o ∧
        o.tag = "Layta.Image" ∧ o.children = none ∧
        o.field "material" = some (.str (materialString p (stripNewlines svg))) := by
  intro p cs pif pr ps svg htype hkids hvec hexp
  have ht : (p.type == "FRAME" || p.type == "GROUP" || p.type == "COMPONENT" ||
      p.type == "INSTANCE") = true := by
    rcases htype with h | h | h | h <;> simp [h]
  refine ⟨_, createNode_image_ok p cs pif pr ps svg ht hkids hvec hexp, rfl, rfl, ?_⟩
  simp [Obj.field, List.find?]

/-- C8 witness: the all-vector component rasterizes to a `Layta.Image` with
no children entry, and the concrete material expression embeds the
payload. -/
theorem c8_vector_only_image_witness :
    (∃ o, createNode imgNode false true true = Except.ok o ∧
      o.tag = "Layta.Image" ∧ o.children = none ∧
      o.field "material" = some (.str (materialString imgProps (stripNewlines "<svg/>")))) ∧
    (createNode imgNode false true true).toOption.bind (fun o => o.field "material") =
      some (.str "Layta.svgCreate(10, 20, \x27<svg/>\x27)") :=
  ⟨c8_vector_only_image imgProps (.cons vecNode (.cons vecNode .nil)) false true true
      "<svg/>" (Or.inr (Or.inr (Or.inl rfl))) rfl rfl rfl, rfl⟩

/-- C10: a container-kind node with an *empty* children sequence satisfies
the vector-only test vacuously (`allVector` of the empty list is `true`), so
it is likewise reclassified as a `Layta.Image` leaf (given a successful
export) rather than emitted as an empty container. -/
theorem c10_empty_container_image :
    ∀ (p : FigmaProps) (pif pr ps : Bool) (svg : String),
      (p.type = "FRAME" ∨ p.type = "GROUP" ∨ p.type = "COMPONENT" ∨ p.type = "INSTANCE") →
      p.hasChildrenProp = true → p.svgExport = Except.ok svg →
      allVector .nil = true ∧
      ∃ o, createNode (.mk p .nil) pif pr ps = Except.ok o ∧
        o.tag = "Layta.Image" ∧ o.children = none := by
  intro p pif pr ps svg htype hkids hexp
  have ht : (p.type == "FRAME" || p.type == "GROUP" || p.type == "COMPONENT" ||
      p.type == "INSTANCE") = true := by
    rcases htype with h | h | h | h <;> simp [h]
  exact ⟨rfl, _, createNode_image_ok p .nil pif pr ps svg ht hkids rfl hexp, rfl, rfl⟩

/-- C10 witness: the empty frame is rasterized as an image leaf, not emitted
as an empty container. -/
theorem c10_empty_container_image_witness :
    (allVector .nil = true ∧
      ∃ o, createNode emptyNode false true true = Except.ok o ∧
        o.tag = "Layta.Image" ∧ o.children = none) ∧
    (createNode emptyNode false true true).toOption.map Obj.tag = some "Layta.Image" :=
  ⟨c10_empty_container_image emptyProps false true true "<svg2/>" (Or.inl rfl) rfl rfl, rfl⟩

/-- C9 counterexample: `instNode` is an `INSTANCE` with horizontal
auto-layout (its resolved flex direction is `"row"`, so it *is* a flex
container) and its rectangle child's own positioning mode is `"AUTO"`
(relative).  The claim requires that child to be relative-positioned, but
the instance branch recurses with `parentIsFrame = false`
(src/code.ts line 276), so the converted child's `position` field is
`"absolute"` and it carries explicit left/top offsets. -/
theorem c9_positioning_counterexample :
    resolveFlexDirection instProps = JsValue.str "row" ∧
    instChildProps.layoutPositioning = some "AUTO" ∧
    (createNode instNode false true true).toOption.bind
        (fun o => o.children.map (fun l => l.toList.map (fun c => c.field "position"))) =
      some [some (JsValue.str "absolute")] ∧
    (createNode instNode false true true).toOption.bind
        (fun o => o.children.map (fun l => l.toList.map (fun c => c.field "left"))) =
      some [some (JsValue.num 3)] :=
  ⟨rfl, rfl, rfl, rfl⟩

/-- C9 (amended): a node is absolute-positioned, with explicit left/top equal
to its own (x, y), exactly when the `parentIsFrame` flag is false or its own
positioning mode is explicitly `"ABSOLUTE"`; otherwise it is
relative-positioned with nil left/top.  The flag is passed as `true` only by
the `FRAME` branch's child loop — `GROUP`/`COMPONENT` and, in particular,
flex-container `INSTANCE` parents pass `false`, so *their* children are
absolute-positioned even when relatively positioned in the source (see the
counterexample). -/
theorem c9_positioning_amended :
    (∀ (p : FigmaProps) (pif : Bool),
      (resolvePosition p pif = "absolute" ↔
        pif = false ∨ p.layoutPositioning.getD "AUTO" = "ABSOLUTE") ∧
      (resolvePosition p pif = "absolute" →
        resolveLeftTop p pif = (JsValue.num p.x, JsValue.num p.y)) ∧
      (resolvePosition p pif = "relative" → resolveLeftTop p pif = (JsValue.null, JsValue.null)) ∧
      (resolvePosition p pif = "absolute" ∨ resolvePosition p pif = "relative")) ∧
    (∀ (p : FigmaProps) (cs : FigmaList) (pif pr ps : Bool),
      p.type = "FRAME" → (p.hasChildrenProp && allVector cs) = false →
      ∃ o, createNode (.mk p cs) pif pr ps = Except.ok o ∧
        o.children = some (createChildren cs true (jsEqStr (resolveFlexDirection p) "row") true).1 ∧
        o.field "position" = some (.str (resolvePosition p pif)) ∧
        o.field "left" = some (resolveLeftTop p pif).1 ∧
        o.field "top" = some (resolveLeftTop p pif).2) ∧
    (∀ (p : FigmaProps) (cs : FigmaList) (pif pr ps : Bool),
      p.type = "INSTANCE" → (p.hasChildrenProp && allVector cs) = false →
      ∃ o, createNode (.mk p cs) pif pr ps = Except.ok o ∧
        o.children = some (createChildren cs false (jsEqStr (resolveFlexDirection p) "row") true).1) := by
  refine ⟨fun p pif => ?_, ?_, ?_⟩
  · cases pif <;>
      by_cases habs : p.layoutPositioning.getD "AUTO" = "ABSOLUTE" <;>
      simp [resolvePosition, resolveLeftTop, habs]
  · intro p cs pif pr ps htype himg
    refine ⟨_, createNode_frame_ok p cs pif pr ps htype himg, rfl, ?_, ?_, ?_⟩ <;>
      simp [Obj.field, List.find?]
  · intro p cs pif pr ps htype himg
    exact ⟨_, createNode_instance_ok p cs pif pr ps htype himg, rfl⟩

/-- C9 witness: the amended statement instantiated — the root `instNode`
itself (converted with `parentIsFrame = false`) is absolute, and the frame
branch applied to the concrete frame. -/
theorem c9_positioning_amended_witness :
    (resolvePosition instProps false = "absolute" ↔
      false = false ∨ instProps.layoutPositioning.getD "AUTO" = "ABSOLUTE") ∧
    (∃ o, createNode (.mk frameProps frameKids) false true true = Except.ok o ∧
      o.children =
        some (createChildren frameKids true (jsEqStr (resolveFlexDirection frameProps) "row") true).1 ∧
      o.field "position" = some (.str (resolvePosition frameProps false)) ∧
      o.field "left" = some (resolveLeftTop frameProps false).1 ∧
      o.field "top" = some (resolveLeftTop frameProps false).2) :=
  ⟨(c9_positioning_amended.1 instProps false).1,
   c9_positioning_amended.2.1 frameProps frameKids false true true rfl rfl⟩

/-- Appending strings concatenates their character data. -/
theorem data_append (a b : String) : (a ++ b).data = a.data ++ b.data := by
  cases a
  cases b
  rfl

/-- The data of a literally constructed string. -/
theorem mk_data (l : List Char) : (String.mk l).data = l := rfl

/-- Rebuilding a string from its data is the identity. -/
theorem mk_data_self (s : String) : String.mk s.data = s := by
  cases s
  rfl

/-- Leading whitespace is skipped. -/
theorem skipWs_append_ws (w s : List Char) (hw : ∀ c ∈ w, isWsChar c = true) :
    skipWs (w ++ s) = skipWs s := by
  induction w with
  | nil => rfl
  | cons c cs ih =>
    have hc := hw c (by simp)
    simp only [List.cons_append, skipWs, hc, if_true]
    exact ih (fun d hd => hw d (by simp [hd]))

/-- A non-whitespace head stops the skip. -/
theorem skipWs_cons_nws (c : Char) (s : List Char) (hc : isWsChar c = false) :
    skipWs (c :: s) = c :: s := by
  simp [skipWs, hc]

/-- Every character of an indentation run is whitespace. -/
theorem indentStr_ws (l : Nat) : ∀ c ∈ (indentStr l).data, isWsChar c = true := by
  induction l with
  | zero => intro c hc; cases hc
  | succ n ih =>
    intro c hc
    rw [show indentStr (n + 1) = "  " ++ indentStr n from rfl, data_append] at hc
    rcases List.mem_append.1 hc with h | h
    · rw [show ("  ").data = [' ', ' '] from rfl] at h
      simp at h
      rw [h]
      rfl
    · exact ih c h

/-- An identifier character is not whitespace. -/
theorem identChar_not_ws (c : Char) (hc : isIdentChar c = true) : isWsChar c = false := by
  by_cases h1 : c = ' '
  · rw [h1] at hc; cases hc
  · by_cases h2 : c = '\n'
    · rw [h2] at hc; cases hc
    · simp [isWsChar, h1, h2]

/-- Reading an identifier stops at the first non-identifier character. -/
theorem takeIdent_append (k : List Char) (c : Char) (s : List Char)
    (hk : ∀ d ∈ k, isIdentChar d = true) (hc : isIdentChar c = false) :
    takeIdent (k ++ c :: s) = (k, c :: s) := by
  induction k with
  | nil => simp [takeIdent, hc]
  | cons d ds ih =>
    have hd := hk d (by simp)
    simp only [List.cons_append, takeIdent, hd, if_true, List.append_eq]
    rw [ih (fun e he => hk e (by simp [he]))]

/-- Reading a digit run stops at the first non-digit. -/
theorem takeDigits_append (k : List Char) (c : Char) (s : List Char)
    (hk : ∀ d ∈ k, d.isDigit = true) (hc : c.isDigit = false) :
    takeDigits (k ++ c :: s) = (k, c :: s) := by
  induction k with
  | nil => simp [takeDigits, hc]
  | cons d ds ih =>
    have hd := hk d (by simp)
    simp only [List.cons_append, takeDigits, hd, if_true, List.append_eq]
    rw [ih (fun e he => hk e (by simp [he]))]

/-- The digit characters read back their values and are digits. -/
theorem digitChar_spec (d : Nat) (hd : d < 10) :
    (digitChar d).isDigit = true ∧ digitVal (digitChar d) = d := by
  interval_cases d <;> exact ⟨rfl, rfl⟩

/-- Reading the rendered digits of `n` back (with any accumulator prefix)
recovers `n` below the accumulator. -/
theorem natCharsAux_spec (fuel : Nat) : ∀ n : Nat, n < fuel →
    (∀ c ∈ natCharsAux fuel n, c.isDigit = true) ∧ natCharsAux fuel n ≠ [] ∧
    digitsToNat (natCharsAux fuel n) = n := by
  induction fuel with
  | zero => intro n hn; omega
  | succ f ih =>
    intro n hn
    by_cases h10 : n < 10
    · refine ⟨?_, ?_, ?_⟩
      · intro c hc
        simp [natCharsAux, h10] at hc
        rw [hc]
        exact (digitChar_spec n h10).1
      · simp [natCharsAux, h10]
      · simp [natCharsAux, h10, digitsToNat]
        exact (digitChar_spec n h10).2
    · have hdiv : n / 10 < n := Nat.div_lt_self (by omega) (by omega)
      have hrec := ih (n / 10) (by omega)
      refine ⟨?_, ?_, ?_⟩
      · intro c hc
        simp only [natCharsAux, h10, if_false] at hc
        rcases List.mem_append.1 hc with h | h
        · exact hrec.1 c h
        · simp at h
          rw [h]
          exact (digitChar_spec (n % 10) (Nat.mod_lt n (by omega))).1
      · simp [natCharsAux, h10]
      · simp only [natCharsAux, h10, if_false, digitsToNat, List.foldl_append]
        rw [show List.foldl (fun a c => 10 * a + digitVal c)
            (List.foldl (fun a c => 10 * a + digitVal c) 0 (natCharsAux f (n / 10)))
            [digitChar (n % 10)] =
          10 * digitsToNat (natCharsAux f (n / 10)) + digitVal (digitChar (n % 10)) from rfl]
        rw [hrec.2.2, (digitChar_spec (n % 10) (Nat.mod_lt n (by omega))).2]
        omega

/-- The digit facts for `natChars`. -/
theorem natChars_spec (n : Nat) :
    (∀ c ∈ natChars n, c.isDigit = true) ∧ natChars n ≠ [] ∧
    digitsToNat (natChars n) = n :=
  natCharsAux_spec (n + 1) n (by omega)


/-- A digit is none of the grammar's literal lead characters. -/
theorem digit_not_lead (c : Char) (hc : c.isDigit = true) :
    c ≠ '"' ∧ c ≠ 'n' ∧ c ≠ 't' ∧ c ≠ 'f' ∧ c ≠ '-' := by
  refine ⟨?_, ?_, ?_, ?_, ?_⟩ <;> intro h <;> subst h <;> exact absurd hc (by decide)

/-- Parsing the rendered decimal form of an integer recovers it (stopping at
any non-digit). -/
theorem parseNum_round (i : Int) (c : Char) (s : List Char) (hc : c.isDigit = false) :
    parseNum (intChars i ++ c :: s) = some ((i : ℚ), c :: s) := by
  obtain ⟨hdig, hne, hval⟩ := natChars_spec i.natAbs
  obtain ⟨hdig', hne', hval'⟩ := natChars_spec i.toNat
  by_cases hneg : i < 0
  · rw [show intChars i = '-' :: natChars i.natAbs from by simp [intChars, hneg],
      List.cons_append]
    rw [show parseNum ('-' :: (natChars i.natAbs ++ c :: s)) =
        (if (takeDigits (natChars i.natAbs ++ c :: s)).1 = [] then none
         else some ((-(digitsToNat (takeDigits (natChars i.natAbs ++ c :: s)).1 : ℚ)),
           (takeDigits (natChars i.natAbs ++ c :: s)).2)) from by simp [parseNum]]
    rw [takeDigits_append _ _ _ hdig hc]
    simp only [hne, if_false]
    rw [hval]
    have habs : ((i.natAbs : ℕ) : ℤ) = -i := by omega
    have h2 : ((i.natAbs : ℕ) : ℚ) = -(i : ℚ) := by
      rw [← @Int.cast_natCast ℚ _ i.natAbs, habs, Int.cast_neg]
    rw [h2, neg_neg]
  · rw [show intChars i = natChars i.toNat from by simp [intChars, hneg]]
    cases hnc : natChars i.toNat with
    | nil => exact absurd hnc hne'
    | cons d tl =>
      have hd : d.isDigit = true := hdig' d (by rw [hnc]; simp)
      have hdm := (digit_not_lead d hd).2.2.2.2
      rw [List.cons_append]
      rw [show parseNum (d :: (tl ++ c :: s)) =
          (if d = '-' then
            (if (takeDigits (tl ++ c :: s)).1 = [] then none
             else some ((-(digitsToNat (takeDigits (tl ++ c :: s)).1 : ℚ)),
               (takeDigits (tl ++ c :: s)).2))
           else
            (if (takeDigits (d :: (tl ++ c :: s))).1 = [] then none
             else some (((digitsToNat (takeDigits (d :: (tl ++ c :: s))).1 : ℚ)),
               (takeDigits (d :: (tl ++ c :: s))).2)) ) from by simp [parseNum]]
      rw [if_neg hdm, ← List.cons_append, ← hnc, takeDigits_append _ _ _ hdig' hc]
      simp only [hne', if_false]
      rw [hval']
      have h2 : ((i.toNat : ℕ) : ℚ) = (i : ℚ) := by
        exact_mod_cast Int.toNat_of_nonneg (by omega)
      rw [h2]

/-- Parsing an escaped, backslash-free string body recovers it. -/
theorem parseStringBody_round (l : List Char) (s : List Char)
    (hl : ∀ c ∈ l, ¬(c = '\\')) :
    parseStringBody (escQuotes l ++ '"' :: s) = some (l, s) := by
  induction l with
  | nil =>
    rw [show escQuotes [] ++ '"' :: s = '"' :: s from rfl]
    simp [parseStringBody]
  | cons c cs ih =>
    have ih' := ih (fun d hd => hl d (by simp [hd]))
    by_cases hq : c = '"'
    · subst hq
      rw [show escQuotes ('"' :: cs) = '\\' :: '"' :: escQuotes cs from by simp [escQuotes],
        List.cons_append, List.cons_append]
      rw [show parseStringBody ('\\' :: ('"' :: (escQuotes cs ++ '"' :: s))) =
          parseStringBodyEsc ('"' :: (escQuotes cs ++ '"' :: s)) from by
        simp [parseStringBody]]
      rw [show parseStringBodyEsc ('"' :: (escQuotes cs ++ '"' :: s)) =
          (parseStringBody (escQuotes cs ++ '"' :: s)).map (fun p => ('"' :: p.1, p.2)) from by
        simp [parseStringBodyEsc]]
      rw [ih']
      rfl
    · have hb : ¬(c = '\\') := hl c (by simp)
      rw [show escQuotes (c :: cs) = c :: escQuotes cs from by simp [escQuotes, hq],
        List.cons_append]
      rw [show parseStringBody (c :: (escQuotes cs ++ '"' :: s)) =
          (parseStringBody (escQuotes cs ++ '"' :: s)).map (fun p => (c :: p.1, p.2)) from by
        simp [parseStringBody, hq, hb]]
      rw [ih']
      rfl

/-- Consuming an expected prefix succeeds on that prefix. -/
theorem expects_self (pre s : List Char) : expects pre (pre ++ s) = some s := by
  induction pre with
  | nil => rfl
  | cons c cs ih => simp [expects, ih]

/-- A rational with denominator one is the cast of its numerator. -/
theorem ratCast_num (q : ℚ) (hden : q.den = 1) : ((q.num : ℤ) : ℚ) = q := by
  conv_rhs => rw [← Rat.num_div_den q, hden]
  push_cast
  simp

/-- Parsing the serialized form of a good scalar value recovers it (stopping
at any non-digit). -/
theorem parseValue_round (v : JsValue) (hv : goodVal v = true) (c : Char) (s : List Char)
    (hc : c.isDigit = false) :
    parseValue ((transpile v 0).data ++ c :: s) = some (v, c :: s) := by
  cases v with
  | null => cases hv
  | arr a => cases hv
  | obj o => cases hv
  | bool b =>
    cases b
    · rw [show (transpile (JsValue.bool false) 0).data ++ c :: s =
        'f' :: ('a' :: 'l' :: 's' :: 'e' :: (c :: s)) from rfl]
      rw [show parseValue ('f' :: ('a' :: 'l' :: 's' :: 'e' :: (c :: s))) =
          (expects ['a', 'l', 's', 'e'] ('a' :: 'l' :: 's' :: 'e' :: (c :: s))).map
            (fun r => (JsValue.bool false, r)) from by simp [parseValue]]
      rw [show ('a' :: 'l' :: 's' :: 'e' :: (c :: s)) =
        ['a', 'l', 's', 'e'] ++ (c :: s) from rfl, expects_self]
      rfl
    · rw [show (transpile (JsValue.bool true) 0).data ++ c :: s =
        't' :: ('r' :: 'u' :: 'e' :: (c :: s)) from rfl]
      rw [show parseValue ('t' :: ('r' :: 'u' :: 'e' :: (c :: s))) =
          (expects ['r', 'u', 'e'] ('r' :: 'u' :: 'e' :: (c :: s))).map
            (fun r => (JsValue.bool true, r)) from by simp [parseValue]]
      rw [show ('r' :: 'u' :: 'e' :: (c :: s)) = ['r', 'u', 'e'] ++ (c :: s) from rfl,
        expects_self]
      rfl
  | str t =>
    have hl : ∀ d ∈ t.data, ¬(d = '\\') := by
      intro d hd
      have := List.all_eq_true.mp hv d hd
      simpa using this
    rw [show (transpile (JsValue.str t) 0).data = '"' :: (escQuotes t.data ++ ['"']) from by
      rw [show transpile (JsValue.str t) 0 =
        "\"" ++ String.mk (escQuotes t.data) ++ "\"" from rfl, data_append, data_append]
      rfl]
    rw [List.cons_append, List.append_assoc]
    rw [show parseValue ('"' :: (escQuotes t.data ++ (['"'] ++ c :: s))) =
        (parseStringBody (escQuotes t.data ++ (['"'] ++ c :: s))).map
          (fun p => (JsValue.str (String.mk p.1), p.2)) from by simp [parseValue]]
    rw [show escQuotes t.data ++ (['"'] ++ c :: s) =
      escQuotes t.data ++ '"' :: (c :: s) from rfl]
    rw [parseStringBody_round t.data _ hl]
    simp [mk_data_self]
  | num q =>
    have hden : q.den = 1 := by simpa [goodVal] using hv
    rw [show (transpile (JsValue.num q) 0).data = intChars q.num from by
      rw [show transpile (JsValue.num q) 0 = jsNumToString q from rfl, jsNumToString,
        if_pos hden]]
    obtain ⟨hdigA, hneA, _⟩ := natChars_spec q.num.natAbs
    obtain ⟨hdigT, hneT, _⟩ := natChars_spec q.num.toNat
    cases hni : intChars q.num with
    | nil =>
      by_cases hneg : q.num < 0
      · rw [show intChars q.num = '-' :: natChars q.num.natAbs from by
          simp [intChars, hneg]] at hni
        cases hni
      · rw [show intChars q.num = natChars q.num.toNat from by simp [intChars, hneg]] at hni
        exact absurd hni hneT
    | cons d tl =>
      have hd : d = '-' ∨ d.isDigit = true := by
        by_cases hneg : q.num < 0
        · rw [show intChars q.num = '-' :: natChars q.num.natAbs from by
            simp [intChars, hneg]] at hni
          injection hni with h1 _
          exact Or.inl h1.symm
        · rw [show intChars q.num = natChars q.num.toNat from by simp [intChars, hneg]] at hni
          exact Or.inr (hdigT d (by rw [hni]; simp))
      have hlead : ¬(d = '"') ∧ ¬(d = 'n') ∧ ¬(d = 't') ∧ ¬(d = 'f') := by
        rcases hd with h | h
        · subst h
          exact ⟨by decide, by decide, by decide, by decide⟩
        · obtain ⟨a1, a2, a3, a4, _⟩ := digit_not_lead d h
          exact ⟨a1, a2, a3, a4⟩
      rw [List.cons_append]
      rw [show parseValue (d :: (tl ++ c :: s)) =
          (parseNum (d :: (tl ++ c :: s))).map (fun p => (JsValue.num p.1, p.2)) from by
        simp [parseValue, hlead.1, hlead.2.1, hlead.2.2.1, hlead.2.2.2]]
      rw [← List.cons_append, ← hni, parseNum_round q.num c s hc]
      simp [ratCast_num q hden]

/-- The serialized form of a good value is nonempty and starts with a
non-whitespace character. -/
theorem transpile_good_head (v : JsValue) (hv : goodVal v = true) :
    ∃ c0 t0, (transpile v 0).data = c0 :: t0 ∧ isWsChar c0 = false := by
  cases v with
  | null => cases hv
  | arr a => cases hv
  | obj o => cases hv
  | bool b => cases b <;> exact ⟨_, _, rfl, by decide⟩
  | str t => exact ⟨'"', _, by
      rw [show transpile (JsValue.str t) 0 =
        "\"" ++ String.mk (escQuotes t.data) ++ "\"" from rfl, data_append, data_append]
      rfl, by decide⟩
  | num q =>
    have hden : q.den = 1 := by simpa [goodVal] using hv
    have hdata : (transpile (JsValue.num q) 0).data = intChars q.num := by
      rw [show transpile (JsValue.num q) 0 = jsNumToString q from rfl, jsNumToString,
        if_pos hden]
    obtain ⟨hdigT, hneT, _⟩ := natChars_spec q.num.toNat
    by_cases hneg : q.num < 0
    · exact ⟨'-', _, by
        rw [hdata, show intChars q.num = '-' :: natChars q.num.natAbs from by
          simp [intChars, hneg]], by decide⟩
    · cases hnc : natChars q.num.toNat with
      | nil => exact absurd hnc hneT
      | cons d tl =>
        have hd : d.isDigit = true := hdigT d (by rw [hnc]; simp)
        have hdw : isWsChar d = false := by
          by_cases h1 : d = ' '
          · subst h1; exact absurd hd (by decide)
          · by_cases h2 : d = '\n'
            · subst h2; exact absurd hd (by decide)
            · simp [isWsChar, h1, h2]
        exact ⟨d, tl, by
          rw [hdata, show intChars q.num = natChars q.num.toNat from by
            simp [intChars, hneg], hnc], hdw⟩

/-- A good field's argument entry is plain `key = serialized-value`. -/
theorem entryStr_good (kv : String × JsValue) (h : goodField kv = true) :
    entryStr kv = kv.1 ++ " = " ++ transpile kv.2 0 := by
  simp only [goodField, Bool.and_eq_true, Bool.not_eq_true'] at h
  simp [entryStr, h.1.1.2, h.1.2]

/-- The component facts of a good field. -/
theorem goodField_parts (kv : String × JsValue) (h : goodField kv = true) :
    kv.1.data ≠ [] ∧ (∀ d ∈ kv.1.data, isIdentChar d = true) ∧ goodVal kv.2 = true := by
  simp only [goodField, Bool.and_eq_true, Bool.not_eq_true'] at h
  have hid := h.1.1.1
  simp only [goodIdent, Bool.and_eq_true, Bool.not_eq_true'] at hid
  refine ⟨by simpa using hid.1, ?_, h.2⟩
  intro d hd
  exact List.all_eq_true.mp hid.2 d hd

/-- An identifier character is not a closing brace, not a comma and not
whitespace. -/
theorem identChar_facts (c : Char) (hc : isIdentChar c = true) :
    ¬(c = '\x7d') ∧ isWsChar c = false := by
  constructor
  · intro h
    subst h
    exact absurd hc (by decide)
  · exact identChar_not_ws c hc

/-- Parsing the emitted argument record recovers the field list: the fields
of the record appear as `key = value` entries joined by `", "`, and the
parser reads them back in order up to the closing brace. -/
theorem parseFields_round : ∀ (fs : List (String × JsValue)) (fuel : Nat) (w s : List Char),
    (∀ c ∈ w, isWsChar c = true) → fs.all goodField = true → fs.length < fuel →
    parseFields fuel (w ++ (joinSep ", " (fs.map entryStr)).data ++ '\x7d' :: s) =
      some (fs, s)
  | [], fuel, w, s => fun hw _ hlen => by
    obtain ⟨f, rfl⟩ : ∃ f, fuel = f + 1 := ⟨fuel - 1, by omega⟩
    rw [show (joinSep ", " (List.map entryStr [])).data = [] from rfl, List.append_nil]
    have hskip : skipWs (w ++ '\x7d' :: s) = '\x7d' :: s := by
      rw [skipWs_append_ws w _ hw]
      exact skipWs_cons_nws _ _ (by decide)
    simp [parseFields, hskip]
  | [kv], fuel, w, s => fun hw hg hlen => by
    obtain ⟨f, rfl⟩ : ∃ f, fuel = f + 1 := ⟨fuel - 1, by omega⟩
    have hgf : goodField kv = true := by simpa using hg
    obtain ⟨hkne, hkid, hvv⟩ := goodField_parts kv hgf
    rw [show joinSep ", " (List.map entryStr [kv]) = entryStr kv from rfl,
      entryStr_good kv hgf, data_append, data_append,
      show (" = ").data = [' ', '=', ' '] from rfl]
    simp only [List.append_assoc, List.cons_append, List.nil_append]
    cases hk : kv.1.data with
    | nil => exact absurd hk hkne
    | cons c0 k' =>
      have hc0 : isIdentChar c0 = true := hkid c0 (by rw [hk]; simp)
      have hall : ∀ d ∈ c0 :: k', isIdentChar d = true := by rw [← hk]; exact hkid
      have hskip1 : skipWs (w ++ c0 :: (k' ++
          (' ' :: '=' :: ' ' :: ((transpile kv.2 0).data ++ '\x7d' :: s)))) =
          c0 :: (k' ++ (' ' :: '=' :: ' ' :: ((transpile kv.2 0).data ++ '\x7d' :: s))) := by
        rw [skipWs_append_ws w _ hw]
        exact skipWs_cons_nws _ _ (identChar_facts c0 hc0).2
      have hne0 : ¬(c0 = '\x7d') := (identChar_facts c0 hc0).1
      have htake : takeIdent (c0 :: (k' ++
          (' ' :: '=' :: ' ' :: ((transpile kv.2 0).data ++ '\x7d' :: s)))) =
          (c0 :: k', ' ' :: '=' :: ' ' :: ((transpile kv.2 0).data ++ '\x7d' :: s)) := by
        have := takeIdent_append (c0 :: k')
          ' ' ('=' :: ' ' :: ((transpile kv.2 0).data ++ '\x7d' :: s)) hall (by decide)
        simpa using this
      have hsk3 : skipWs ((transpile kv.2 0).data ++ '\x7d' :: s) =
          (transpile kv.2 0).data ++ '\x7d' :: s := by
        obtain ⟨v0, t0, hvd, hws⟩ := transpile_good_head kv.2 hvv
        rw [hvd, List.cons_append]
        exact skipWs_cons_nws _ _ hws
      have hsk4 : skipWs ('\x7d' :: s) = '\x7d' :: s := skipWs_cons_nws _ _ (by decide)
      have hpv : parseValue ((transpile kv.2 0).data ++ '\x7d' :: s) =
          some (kv.2, '\x7d' :: s) := parseValue_round kv.2 hvv '\x7d' s (by decide)
      have hmk : String.mk (c0 :: k') = kv.1 := by
        rw [← hk]
      simp [parseFields, hskip1, hne0, htake, skipWs, isWsChar, hsk3, hsk4, hpv, hmk]
  | kv :: kv2 :: rest, fuel, w, s => fun hw hg hlen => by
    obtain ⟨f, rfl⟩ : ∃ f, fuel = f + 1 := ⟨fuel - 1, by omega⟩
    have hgf : goodField kv = true := by
      simp only [List.all_cons, Bool.and_eq_true] at hg
      exact hg.1
    have hg' : (kv2 :: rest).all goodField = true := by
      simp only [List.all_cons, Bool.and_eq_true] at hg ⊢
      exact ⟨hg.2.1, hg.2.2⟩
    obtain ⟨hkne, hkid, hvv⟩ := goodField_parts kv hgf
    rw [show joinSep ", " (List.map entryStr (kv :: kv2 :: rest)) =
        entryStr kv ++ ", " ++ joinSep ", " (List.map entryStr (kv2 :: rest)) from by
      simp [joinSep],
      entryStr_good kv hgf, data_append, data_append, data_append, data_append,
      show (" = ").data = [' ', '=', ' '] from rfl, show (", ").data = [',', ' '] from rfl]
    simp only [List.append_assoc, List.cons_append, List.nil_append]
    have ihr := parseFields_round (kv2 :: rest) f [' '] s (by decide) hg' (by
      simp at hlen ⊢
      omega)
    rw [show [' '] ++ (joinSep ", " (List.map entryStr (kv2 :: rest))).data ++ '\x7d' :: s =
      ' ' :: ((joinSep ", " (List.map entryStr (kv2 :: rest))).data ++ '\x7d' :: s) from by
      simp] at ihr
    generalize hJ : (joinSep ", " (List.map entryStr (kv2 :: rest))).data = J at *
    cases hk : kv.1.data with
    | nil => exact absurd hk hkne
    | cons c0 k' =>
      have hc0 : isIdentChar c0 = true := hkid c0 (by rw [hk]; simp)
      have hall : ∀ d ∈ c0 :: k', isIdentChar d = true := by rw [← hk]; exact hkid
      have hskip1 : skipWs (w ++ c0 :: (k' ++ (' ' :: '=' :: ' ' ::
          ((transpile kv.2 0).data ++ ',' :: ' ' :: (J ++ '\x7d' :: s))))) =
          c0 :: (k' ++ (' ' :: '=' :: ' ' ::
          ((transpile kv.2 0).data ++ ',' :: ' ' :: (J ++ '\x7d' :: s)))) := by
        rw [skipWs_append_ws w _ hw]
        exact skipWs_cons_nws _ _ (identChar_facts c0 hc0).2
      have hne0 : ¬(c0 = '\x7d') := (identChar_facts c0 hc0).1
      have htake : takeIdent (c0 :: (k' ++ (' ' :: '=' :: ' ' ::
          ((transpile kv.2 0).data ++ ',' :: ' ' :: (J ++ '\x7d' :: s))))) =
          (c0 :: k', ' ' :: '=' :: ' ' ::
          ((transpile kv.2 0).data ++ ',' :: ' ' :: (J ++ '\x7d' :: s))) := by
        have := takeIdent_append (c0 :: k') ' '
          ('=' :: ' ' :: ((transpile kv.2 0).data ++ ',' :: ' ' :: (J ++ '\x7d' :: s)))
          hall (by decide)
        simpa using this
      have hsk3 : skipWs ((transpile kv.2 0).data ++ ',' :: ' ' :: (J ++ '\x7d' :: s)) =
          (transpile kv.2 0).data ++ ',' :: ' ' :: (J ++ '\x7d' :: s) := by
        obtain ⟨v0, t0, hvd, hws⟩ := transpile_good_head kv.2 hvv
        rw [hvd, List.cons_append]
        exact skipWs_cons_nws _ _ hws
      have hsk5 : skipWs (',' :: ' ' :: (J ++ '\x7d' :: s)) =
          ',' :: ' ' :: (J ++ '\x7d' :: s) := skipWs_cons_nws _ _ (by decide)
      have hpv : parseValue ((transpile kv.2 0).data ++ ',' :: ' ' ::
          (J ++ '\x7d' :: s)) =
          some (kv.2, ',' :: ' ' :: (J ++ '\x7d' :: s)) :=
        parseValue_round kv.2 hvv ',' _ (by decide)
      have hmk : String.mk (c0 :: k') = kv.1 := by
        rw [← hk]
      simp [parseFields, hskip1, hne0, htake, skipWs, isWsChar, hsk3, hsk5, hpv, hmk, ihr]

/-- The component facts of a good intermediate node. -/
theorem goodObj_parts (tag : String) (children : Option ObjList)
    (fields : List (String × JsValue)) (h : goodObj (.mk tag children fields) = true) :
    tag.data ≠ [] ∧ (∀ d ∈ tag.data, isIdentChar d = true) ∧ fields.all goodField = true ∧
    (∀ l, children = some l → goodList l = true) := by
  unfold goodObj at h
  simp only [Bool.and_eq_true] at h
  obtain ⟨⟨htag, hfld⟩, hch⟩ := h
  simp only [goodIdent, Bool.and_eq_true, Bool.not_eq_true'] at htag
  refine ⟨by simpa using htag.1, fun d hd => List.all_eq_true.mp htag.2 d hd, hfld, ?_⟩
  intro l hl
  rw [hl] at hch
  simpa using hch

/-- Parsing the single-line leaf emission `Tag({props})` recovers the tag and
fields with no children. -/
theorem parseCall_leaf (tag : String) (fields : List (String × JsValue)) (f level : Nat)
    (w s : List Char) (hw : ∀ c ∈ w, isWsChar c = true)
    (htagne : tag.data ≠ []) (htagid : ∀ d ∈ tag.data, isIdentChar d = true)
    (hfields : fields.all goodField = true) (hlen : fields.length < f + 1) :
    parseCall (f + 1) (w ++ (indentStr level ++ tag ++ "(\x7b" ++
      joinSep ", " (fields.map entryStr) ++ "\x7d)").data ++ s) =
      some (.mk tag fields .nil, s) := by
  rw [data_append, data_append, data_append, data_append,
    show ("(\x7b").data = ['(', '\x7b'] from rfl, show ("\x7d)").data = ['\x7d', ')'] from rfl]
  simp only [List.append_assoc, List.cons_append, List.nil_append]
  cases hk : tag.data with
  | nil => exact absurd hk htagne
  | cons c0 k' =>
    have hc0 : isIdentChar c0 = true := htagid c0 (by rw [hk]; simp)
    have hall : ∀ d ∈ c0 :: k', isIdentChar d = true := by rw [← hk]; exact htagid
    have hskip1 : skipWs (w ++ ((indentStr level).data ++ c0 :: (k' ++ '(' :: '\x7b' ::
        ((joinSep ", " (fields.map entryStr)).data ++ '\x7d' :: ')' :: s)))) =
        c0 :: (k' ++ '(' :: '\x7b' ::
        ((joinSep ", " (fields.map entryStr)).data ++ '\x7d' :: ')' :: s)) := by
      rw [skipWs_append_ws w _ hw, skipWs_append_ws _ _ (indentStr_ws level)]
      exact skipWs_cons_nws _ _ (identChar_not_ws c0 hc0)
    have htake : takeIdent (c0 :: (k' ++ '(' :: '\x7b' ::
        ((joinSep ", " (fields.map entryStr)).data ++ '\x7d' :: ')' :: s))) =
        (c0 :: k', '(' :: '\x7b' ::
        ((joinSep ", " (fields.map entryStr)).data ++ '\x7d' :: ')' :: s)) := by
      have := takeIdent_append (c0 :: k') '(' ('\x7b' ::
        ((joinSep ", " (fields.map entryStr)).data ++ '\x7d' :: ')' :: s)) hall (by decide)
      simpa using this
    have hpf : parseFields (f + 1)
        ((joinSep ", " (fields.map entryStr)).data ++ '\x7d' :: ')' :: s) =
        some (fields, ')' :: s) := by
      have := parseFields_round fields (f + 1) [] (')' :: s)
        (fun c hc => absurd hc (List.not_mem_nil c)) hfields hlen
      simpa using this
    have hmk : String.mk (c0 :: k') = tag := by rw [← hk]
    simp [parseCall, hskip1, htake, skipWs, isWsChar, hpf, hmk]

/-- Every node needs at least two units of parser fuel. -/
theorem objWeight_ge_two (t : Obj) : 2 ≤ objWeight t := by
  rcases t with ⟨tag, children, fields⟩
  cases children with
  | none =>
    rw [show objWeight (.mk tag none fields) = 2 + fields.length + 0 from rfl]
    omega
  | some l =>
    rw [show objWeight (.mk tag (some l) fields) =
      2 + fields.length + listWeight l from rfl]
    omega

mutual
/-- Parsing the emitted text of a good intermediate node (after any
whitespace prefix) reconstructs its call tree and leaves the rest of the
input untouched. -/
theorem parseCall_round : ∀ (t : Obj) (fuel level : Nat) (w s : List Char),
    (∀ c ∈ w, isWsChar c = true) → goodObj t = true → objWeight t ≤ fuel →
    parseCall fuel (w ++ (buildTree t level).data ++ s) = some (toCall t, s)
  | .mk tag children fields, fuel, level, w, s => fun hw hg hwt => by
    obtain ⟨htagne, htagid, hfields, hchildren⟩ := goodObj_parts tag children fields hg
    obtain ⟨f, rfl⟩ : ∃ f, fuel = f + 1 := ⟨fuel - 1, by
      have := objWeight_ge_two (.mk tag children fields)
      omega⟩
    cases children with
    | none =>
      have hlen : fields.length < f + 1 := by
        have he : objWeight (.mk tag none fields) = 2 + fields.length + 0 := rfl
        omega
      rw [show buildTree (.mk tag none fields) level = indentStr level ++ tag ++ "(\x7b" ++
        joinSep ", " (fields.map entryStr) ++ "\x7d)" from rfl]
      rw [parseCall_leaf tag fields f level w s hw htagne htagid hfields hlen]
      rfl
    | some l =>
      cases l with
      | nil =>
        have hlen : fields.length < f + 1 := by
          have he : objWeight (.mk tag (some .nil) fields) =
            2 + fields.length + listWeight .nil := rfl
          have h0 : listWeight (.nil : ObjList) = 0 := rfl
          omega
        rw [show buildTree (.mk tag (some .nil) fields) level = indentStr level ++ tag ++
          "(\x7b" ++ joinSep ", " (fields.map entryStr) ++ "\x7d)" from rfl]
        rw [parseCall_leaf tag fields f level w s hw htagne htagid hfields hlen]
        rfl
      | cons c rest =>
        have he : objWeight (.mk tag (some (.cons c rest)) fields) =
          2 + fields.length + listWeight (.cons c rest) := rfl
        have hlen : fields.length < f + 1 := by omega
        have hwl : listWeight (.cons c rest) ≤ f := by omega
        have hgl : goodList (.cons c rest) = true := hchildren _ rfl
        rw [show buildTree (.mk tag (some (.cons c rest)) fields) level =
          indentStr level ++ tag ++ "(\n" ++ indentStr (level + 1) ++ "\x7b" ++
          joinSep ", " (fields.map entryStr) ++ "\x7d,\n" ++
          buildChildren (.cons c rest) (level + 1) ++ "\n" ++ indentStr level ++ ")" from rfl]
        rw [data_append, data_append, data_append, data_append, data_append, data_append,
          data_append, data_append, data_append, data_append,
          show ("(\n").data = ['(', '\n'] from rfl, show ("\x7b").data = ['\x7b'] from rfl,
          show ("\x7d,\n").data = ['\x7d', ',', '\n'] from rfl,
          show ("\n").data = ['\n'] from rfl, show (")").data = [')'] from rfl]
        simp only [List.append_assoc, List.cons_append, List.nil_append]
        cases hk : tag.data with
        | nil => exact absurd hk htagne
        | cons c0 k' =>
          try simp only [List.cons_append]
          have hc0 : isIdentChar c0 = true := htagid c0 (by rw [hk]; simp)
          have hall : ∀ d ∈ c0 :: k', isIdentChar d = true := by rw [← hk]; exact htagid
          have hskip1 : skipWs (w ++ ((indentStr level).data ++ c0 :: (k' ++ '(' :: '\n' ::
              ((indentStr (level + 1)).data ++ '\x7b' ::
              ((joinSep ", " (fields.map entryStr)).data ++ '\x7d' :: ',' :: '\n' ::
              ((buildChildren (.cons c rest) (level + 1)).data ++ '\n' ::
              ((indentStr level).data ++ ')' :: s))))))) =
              c0 :: (k' ++ '(' :: '\n' ::
              ((indentStr (level + 1)).data ++ '\x7b' ::
              ((joinSep ", " (fields.map entryStr)).data ++ '\x7d' :: ',' :: '\n' ::
              ((buildChildren (.cons c rest) (level + 1)).data ++ '\n' ::
              ((indentStr level).data ++ ')' :: s))))) := by
            rw [skipWs_append_ws w _ hw, skipWs_append_ws _ _ (indentStr_ws level)]
            exact skipWs_cons_nws _ _ (identChar_not_ws c0 hc0)
          have htake : takeIdent (c0 :: (k' ++ '(' :: '\n' ::
              ((indentStr (level + 1)).data ++ '\x7b' ::
              ((joinSep ", " (fields.map entryStr)).data ++ '\x7d' :: ',' :: '\n' ::
              ((buildChildren (.cons c rest) (level + 1)).data ++ '\n' ::
              ((indentStr level).data ++ ')' :: s)))))) =
              (c0 :: k', '(' :: '\n' ::
              ((indentStr (level + 1)).data ++ '\x7b' ::
              ((joinSep ", " (fields.map entryStr)).data ++ '\x7d' :: ',' :: '\n' ::
              ((buildChildren (.cons c rest) (level + 1)).data ++ '\n' ::
              ((indentStr level).data ++ ')' :: s))))) := by
            have := takeIdent_append (c0 :: k') '(' ('\n' ::
              ((indentStr (level + 1)).data ++ '\x7b' ::
              ((joinSep ", " (fields.map entryStr)).data ++ '\x7d' :: ',' :: '\n' ::
              ((buildChildren (.cons c rest) (level + 1)).data ++ '\n' ::
              ((indentStr level).data ++ ')' :: s))))) hall (by decide)
            simpa using this
          have hskin : skipWs ('\n' :: ((indentStr (level + 1)).data ++ '\x7b' ::
              ((joinSep ", " (fields.map entryStr)).data ++ '\x7d' :: ',' :: '\n' ::
              ((buildChildren (.cons c rest) (level + 1)).data ++ '\n' ::
              ((indentStr level).data ++ ')' :: s))))) =
              '\x7b' :: ((joinSep ", " (fields.map entryStr)).data ++ '\x7d' :: ',' :: '\n' ::
              ((buildChildren (.cons c rest) (level + 1)).data ++ '\n' ::
              ((indentStr level).data ++ ')' :: s))) := by
            rw [show skipWs ('\n' :: ((indentStr (level + 1)).data ++ '\x7b' ::
              ((joinSep ", " (fields.map entryStr)).data ++ '\x7d' :: ',' :: '\n' ::
              ((buildChildren (.cons c rest) (level + 1)).data ++ '\n' ::
              ((indentStr level).data ++ ')' :: s))))) =
              skipWs ((indentStr (level + 1)).data ++ '\x7b' ::
              ((joinSep ", " (fields.map entryStr)).data ++ '\x7d' :: ',' :: '\n' ::
              ((buildChildren (.cons c rest) (level + 1)).data ++ '\n' ::
              ((indentStr level).data ++ ')' :: s)))) from by simp [skipWs, isWsChar]]
            rw [skipWs_append_ws _ _ (indentStr_ws (level + 1))]
            exact skipWs_cons_nws _ _ (by decide)
          have hpf : parseFields (f + 1)
              ((joinSep ", " (fields.map entryStr)).data ++ '\x7d' :: ',' :: '\n' ::
              ((buildChildren (.cons c rest) (level + 1)).data ++ '\n' ::
              ((indentStr level).data ++ ')' :: s))) =
              some (fields, ',' :: '\n' ::
              ((buildChildren (.cons c rest) (level + 1)).data ++ '\n' ::
              ((indentStr level).data ++ ')' :: s))) := by
            have := parseFields_round fields (f + 1) [] (',' :: '\n' ::
              ((buildChildren (.cons c rest) (level + 1)).data ++ '\n' ::
              ((indentStr level).data ++ ')' :: s)))
              (fun c hc => absurd hc (List.not_mem_nil c)) hfields hlen
            simpa using this
          have hpc : parseChildren f ('\n' ::
              ((buildChildren (.cons c rest) (level + 1)).data ++ '\n' ::
              ((indentStr level).data ++ ')' :: s))) =
              some (toCallList (.cons c rest), s) := by
            have := parseChildren_round (.cons c rest) f level ['\n'] s
              (by decide) hgl (by intro h; cases h) hwl
            simpa using this
          have hmk : String.mk (c0 :: k') = tag := by rw [← hk]
          simp [parseCall, hskip1, htake, hskin, hpf, skipWs, isWsChar, hpc, hmk, toCall,
            fun x => skipWs_append_ws (indentStr level).data x (indentStr_ws level)]
/-- Parsing the emitted children block (after any whitespace prefix) up to
the closing parenthesis reconstructs the child calls in order. -/
theorem parseChildren_round : ∀ (l : ObjList) (fuel level : Nat) (w s : List Char),
    (∀ c ∈ w, isWsChar c = true) → goodList l = true → l ≠ .nil → listWeight l ≤ fuel →
    parseChildren fuel (w ++ (buildChildren l (level + 1)).data ++
      '\n' :: ((indentStr level).data ++ ')' :: s)) = some (toCallList l, s)
  | .nil, fuel, level, w, s => fun _ _ hne _ => absurd rfl hne
  | .cons c .nil, fuel, level, w, s => fun hw hgl _ hwt => by
    have hgc : goodObj c = true := by
      unfold goodList at hgl
      exact (Bool.and_eq_true _ _ |>.mp hgl).1
    have hlw : listWeight (.cons c .nil) = objWeight c + 1 + listWeight .nil := rfl
    have h0 : listWeight (.nil : ObjList) = 0 := rfl
    have h2 := objWeight_ge_two c
    obtain ⟨f, rfl⟩ : ∃ f, fuel = f + 1 := ⟨fuel - 1, by omega⟩
    have hwc : objWeight c ≤ f := by omega
    have hc := parseCall_round c f (level + 1) w
      ('\n' :: ((indentStr level).data ++ ')' :: s)) hw hgc hwc
    have hsk : skipWs ('\n' :: ((indentStr level).data ++ ')' :: s)) = ')' :: s := by
      rw [show skipWs ('\n' :: ((indentStr level).data ++ ')' :: s)) =
        skipWs ((indentStr level).data ++ ')' :: s) from by simp [skipWs, isWsChar]]
      rw [skipWs_append_ws _ _ (indentStr_ws level)]
      exact skipWs_cons_nws _ _ (by decide)
    rw [show buildChildren (.cons c .nil) (level + 1) = buildTree c (level + 1) from rfl]
    rw [List.append_assoc] at hc
    simp [parseChildren, hc, hsk, toCallList]
  | .cons c (.cons d rest), fuel, level, w, s => fun hw hgl _ hwt => by
    have hgparts : goodObj c = true ∧ goodList (.cons d rest) = true := by
      unfold goodList at hgl
      exact Bool.and_eq_true _ _ |>.mp hgl
    have hlw : listWeight (.cons c (.cons d rest)) =
      objWeight c + 1 + listWeight (.cons d rest) := rfl
    have h2 := objWeight_ge_two c
    obtain ⟨f, rfl⟩ : ∃ f, fuel = f + 1 := ⟨fuel - 1, by omega⟩
    have hwc : objWeight c ≤ f := by omega
    have hwrest : listWeight (.cons d rest) ≤ f := by omega
    rw [show buildChildren (.cons c (.cons d rest)) (level + 1) =
      buildTree c (level + 1) ++ ",\n" ++ buildChildren (.cons d rest) (level + 1) from rfl]
    rw [data_append, data_append, show (",\n").data = [',', '\n'] from rfl]
    simp only [List.append_assoc, List.cons_append, List.nil_append]
    have hc := parseCall_round c f (level + 1) w
      (',' :: '\n' :: ((buildChildren (.cons d rest) (level + 1)).data ++ '\n' ::
        ((indentStr level).data ++ ')' :: s))) hw hgparts.1 hwc
    have hrest : parseChildren f ('\n' ::
        ((buildChildren (.cons d rest) (level + 1)).data ++ '\n' ::
        ((indentStr level).data ++ ')' :: s))) = some (toCallList (.cons d rest), s) := by
      have := parseChildren_round (.cons d rest) f level ['\n'] s (by decide) hgparts.2
        (by intro h; cases h) hwrest
      simpa using this
    rw [List.append_assoc] at hc
    simp [parseChildren, hc, skipWs, isWsChar, hrest, toCallList]
end

/-- The joined field text carries at least two characters per field (the
separators), counting a final slack of two. -/
theorem joinSep_len : ∀ (l : List String), 2 * l.length ≤ (joinSep ", " l).data.length + 2
  | [] => by simp [joinSep]
  | [x] => by simp [joinSep]
  | x :: y :: rest => by
    have ih := joinSep_len (y :: rest)
    rw [show joinSep ", " (x :: y :: rest) = x ++ ", " ++ joinSep ", " (y :: rest) from rfl]
    rw [data_append, data_append, show (", ").data = [',', ' '] from rfl]
    simp only [List.length_append, List.length_cons, List.length_nil] at *
    omega

mutual
/-- The emitted text of a node is strictly longer than its parser-fuel
weight, so the top-level fuel `length + 1` always suffices. -/
theorem buildTree_len : ∀ (t : Obj) (level : Nat),
    objWeight t + 1 ≤ (buildTree t level).data.length
  | .mk tag children fields, level => by
    have hj := joinSep_len (fields.map entryStr)
    rw [List.length_map] at hj
    cases children with
    | none =>
      have he : objWeight (.mk tag none fields) = 2 + fields.length + 0 := rfl
      rw [show buildTree (.mk tag none fields) level = indentStr level ++ tag ++ "(\x7b" ++
        joinSep ", " (fields.map entryStr) ++ "\x7d)" from rfl]
      rw [data_append, data_append, data_append, data_append,
        show ("(\x7b").data = ['(', '\x7b'] from rfl,
        show ("\x7d)").data = ['\x7d', ')'] from rfl]
      simp only [List.length_append, List.length_cons, List.length_nil]
      omega
    | some l =>
      cases l with
      | nil =>
        have he : objWeight (.mk tag (some .nil) fields) =
          2 + fields.length + listWeight .nil := rfl
        have h0 : listWeight (.nil : ObjList) = 0 := rfl
        rw [show buildTree (.mk tag (some .nil) fields) level = indentStr level ++ tag ++
          "(\x7b" ++ joinSep ", " (fields.map entryStr) ++ "\x7d)" from rfl]
        rw [data_append, data_append, data_append, data_append,
          show ("(\x7b").data = ['(', '\x7b'] from rfl,
          show ("\x7d)").data = ['\x7d', ')'] from rfl]
        simp only [List.length_append, List.length_cons, List.length_nil]
        omega
      | cons c rest =>
        have he : objWeight (.mk tag (some (.cons c rest)) fields) =
          2 + fields.length + listWeight (.cons c rest) := rfl
        have hb := buildChildren_len (.cons c rest) (level + 1) (by intro h; cases h)
        rw [show buildTree (.mk tag (some (.cons c rest)) fields) level =
          indentStr level ++ tag ++ "(\n" ++ indentStr (level + 1) ++ "\x7b" ++
          joinSep ", " (fields.map entryStr) ++ "\x7d,\n" ++
          buildChildren (.cons c rest) (level + 1) ++ "\n" ++ indentStr level ++ ")" from rfl]
        rw [data_append, data_append, data_append, data_append, data_append, data_append,
          data_append, data_append, data_append, data_append,
          show ("(\n").data = ['(', '\n'] from rfl, show ("\x7b").data = ['\x7b'] from rfl,
          show ("\x7d,\n").data = ['\x7d', ',', '\n'] from rfl,
          show ("\n").data = ['\n'] from rfl, show (")").data = [')'] from rfl]
        simp only [List.length_append, List.length_cons, List.length_nil]
        omega
/-- The emitted children block is at least as long as the children fuel
weight. -/
theorem buildChildren_len : ∀ (l : ObjList) (level : Nat), l ≠ .nil →
    listWeight l ≤ (buildChildren l level).data.length
  | .nil, _, hne => absurd rfl hne
  | .cons c .nil, level, _ => by
    have hlw : listWeight (.cons c .nil) = objWeight c + 1 + listWeight .nil := rfl
    have h0 : listWeight (.nil : ObjList) = 0 := rfl
    have hc := buildTree_len c level
    rw [show buildChildren (.cons c .nil) level = buildTree c level from rfl]
    omega
  | .cons c (.cons d rest), level, _ => by
    have hlw : listWeight (.cons c (.cons d rest)) =
      objWeight c + 1 + listWeight (.cons d rest) := rfl
    have hc := buildTree_len c level
    have hrest := buildChildren_len (.cons d rest) level (by intro h; cases h)
    rw [show buildChildren (.cons c (.cons d rest)) level =
      buildTree c level ++ ",\n" ++ buildChildren (.cons d rest) level from rfl]
    rw [data_append, data_append, show (",\n").data = [',', '\n'] from rfl]
    simp only [List.length_append, List.length_cons, List.length_nil]
    omega
end

/-- C2: the unrestricted round-trip claim fails. A node whose string field
value is a single backslash — a present field of the supported string kind —
emits `id = "\"`, which the known grammar cannot parse at all (the escaped
quote swallows the closing delimiter), so no isomorphic call tree is
reconstructed. -/
theorem c2_roundtrip_counterexample :
    parseTop (buildTree backslashObj 0) = none ∧
    parseTop (buildTree backslashObj 0) ≠ some (toCall backslashObj) := by
  refine ⟨rfl, ?_⟩
  intro h
  rw [show parseTop (buildTree backslashObj 0) = none from rfl] at h
  exact Option.noConfusion h

/-- C2 (amended): for every intermediate tree whose tags and keys are
identifier-shaped, whose keys avoid the raw-expression keys font/material,
and whose field values are booleans, integral numbers or backslash-free
strings, parsing the emitted text under the known grammar reconstructs the
call tree exactly: same tag, same ordered field set, same child order. -/
theorem c2_roundtrip_amended (t : Obj) (hg : goodObj t = true) :
    parseTop (buildTree t 0) = some (toCall t) := by
  have hf : objWeight t ≤ (buildTree t 0).data.length + 1 := by
    have := buildTree_len t 0
    omega
  have h1 := parseCall_round t ((buildTree t 0).data.length + 1) 0 [] []
    (fun c hc => absurd hc (List.not_mem_nil c)) hg hf
  simp only [List.nil_append, List.append_nil] at h1
  unfold parseTop
  rw [h1]

/-- C2 amended theorem witnessed on a concrete two-level tree with string,
boolean and negative integer fields. -/
theorem c2_roundtrip_amended_witness :
    goodObj demoObj = true ∧ parseTop (buildTree demoObj 0) = some (toCall demoObj) :=
  ⟨rfl, c2_roundtrip_amended demoObj rfl⟩
